import Mathlib

/-!
Shallow embedding of the core downloader logic of this repository
(dlive_downloader/client.py): playlist parsing, the length/duration
normalization, the retry-session configuration, filename sanitization and
the segment-download pipeline of download_variant, together with theorems
settling the specification claims about them.

Python strings are modelled as Lean strings (lists of characters); machine
integers do not occur on any modelled path.  Network and filesystem effects
of the pipeline are modelled by an explicit oracle (NetEnv) describing the
outcome of every external call, and an explicit filesystem-observation
state (FsState) threaded through the pipeline exactly where client.py
performs the corresponding effect.
-/

/-- Whitespace characters recognised by Python str.strip() on the ASCII
inputs relevant here. -/
def isPyWhitespace (c : Char) : Bool :=
  c = ' ' || c = '\t' || c = '\n' || c = '\r' || c = Char.ofNat 11 || c = Char.ofNat 12

/-- Drop characters satisfying bad from both ends of a list. -/
def stripChars (bad : Char → Bool) (l : List Char) : List Char :=
  ((l.dropWhile bad).reverse.dropWhile bad).reverse

/-- Python str.strip() with no argument (strip whitespace from both ends). -/
def pyStrip (s : String) : String :=
  ⟨stripChars isPyWhitespace s.data⟩

/-- Python str.strip of all leading/trailing double-quote characters,
modelling value.strip of a quote as used in _parse_attributes. -/
def stripQuotes (l : List Char) : List Char :=
  stripChars (fun c => c = '"') l

/-- Split a character list at newline characters.  Models str.splitlines for
the newline-separated playlist texts handled here (a trailing newline yields
one extra empty line, which every consumer strips or skips). -/
def splitOnNl : List Char → List (List Char)
  | [] => [[]]
  | c :: rest =>
    if c = '\n' then [] :: splitOnNl rest
    else
      match splitOnNl rest with
      | [] => [[c]]
      | l :: ls => (c :: l) :: ls

/-- Python str.splitlines on the playlist texts handled here. -/
def pySplitlines (s : String) : List String :=
  (splitOnNl s.data).map (fun l => ⟨l⟩)

/-- List-level startswith test. -/
def listStartsWith : List Char → List Char → Bool
  | _, [] => true
  | [], _ :: _ => false
  | c :: cs, p :: ps => c = p && listStartsWith cs ps

/-- Python str.startswith. -/
def strStartsWith (s p : String) : Bool :=
  listStartsWith s.data p.data

/-- Lower-case an ASCII letter, the identity elsewhere. -/
def toLowerChar (c : Char) : Char :=
  if 'A' ≤ c && c ≤ 'Z' then Char.ofNat (c.toNat + 32) else c

/-- Python str.lower on the ASCII suffix strings compared here. -/
def lowerStr (s : String) : String :=
  ⟨s.data.map toLowerChar⟩

/-- True when the character list contains the scheme separator of an
absolute URL. -/
def hasSchemeSep : List Char → Bool
  | ':' :: '/' :: '/' :: _ => true
  | _ :: rest => hasSchemeSep rest
  | [] => false

/-- Prefix of an absolute URL up to (excluding) the first slash after the
scheme separator: the scheme plus authority. -/
def hostRoot : List Char → List Char
  | ':' :: '/' :: '/' :: rest => ':' :: '/' :: '/' :: rest.takeWhile (fun c => c ≠ '/')
  | c :: rest => c :: hostRoot rest
  | [] => []

/-- Everything up to and including the last slash. -/
def upToLastSlash (l : List Char) : List Char :=
  (l.reverse.dropWhile (fun c => c ≠ '/')).reverse

/-- Total core of urllib.parse.urljoin for the URL shapes exercised by the
playlists handled here: an absolute reference is returned unchanged, a
root-relative reference replaces the path of the base, and any other
reference replaces the last path component of the base.  This covers only
the non-raising path of the library function: urlsplit additionally raises
ValueError (Invalid IPv6 URL) on an unbalanced bracketed netloc in the base
or the reference, an error path made explicit by invalidIPv6 and pyUrljoinE
below. -/
def urljoin (base ref : String) : String :=
  if hasSchemeSep ref.data then ref
  else if listStartsWith ref.data ['/'] then ⟨hostRoot base.data ++ ref.data⟩
  else ⟨upToLastSlash base.data ++ ref.data⟩

/-- Characters matched by the key group of the attribute regex in
_parse_attributes: upper-case letters, digits, backslash and hyphen. -/
def isKeyChar (c : Char) : Bool :=
  ('A' ≤ c && c ≤ 'Z') || ('0' ≤ c && c ≤ '9') || c = '\\' || c = '-'

/-- Value group of the attribute regex: a quoted string when one starts at
the current position and is terminated, otherwise a bare run up to the next
comma.  Returns the matched value text and the remaining input. -/
def matchValue (l : List Char) : List Char × List Char :=
  match l with
  | '"' :: rest =>
    let inner := rest.takeWhile (fun c => c ≠ '"')
    let after := rest.dropWhile (fun c => c ≠ '"')
    match after with
    | '"' :: rest2 => ('"' :: (inner ++ ['"']), rest2)
    | _ => (l.takeWhile (fun c => c ≠ ','), l.dropWhile (fun c => c ≠ ','))
  | _ => (l.takeWhile (fun c => c ≠ ','), l.dropWhile (fun c => c ≠ ','))

/-- Scan of re.finditer for the attribute pattern of _parse_attributes: at
each position, a maximal run of key characters immediately followed by an
equals sign starts a match whose value is read by matchValue; otherwise the
scan advances one character.  The fuel argument starts at the input length,
which bounds the number of scan steps. -/
def findAttrsAux : Nat → List Char → List (String × String)
  | 0, _ => []
  | _, [] => []
  | fuel + 1, c :: rest =>
    if isKeyChar c then
      let key := (c :: rest).takeWhile isKeyChar
      let afterKey := (c :: rest).dropWhile isKeyChar
      match afterKey with
      | '=' :: vrest =>
        let v := matchValue vrest
        (⟨key⟩, ⟨stripQuotes v.1⟩) :: findAttrsAux fuel v.2
      | _ => findAttrsAux fuel rest
    else findAttrsAux fuel rest

/-- The attribute parser _parse_attributes of client.py: key=value pairs in
scan order, values unquoted. -/
def _parse_attributes (line : String) : List (String × String) :=
  findAttrsAux line.data.length line.data

/-- Python dict lookup over the pairs produced by _parse_attributes: a later
binding of the same key overwrites an earlier one, so .get returns the last
binding. -/
def dictGet (k : String) (ps : List (String × String)) : Option String :=
  ((ps.filter (fun p => p.1 = k)).getLast?).map (fun p => p.2)

/-- Python `a or b` on optional strings, where None and the empty string are
falsy. -/
def pyOr (a b : Option String) : Option String :=
  match a with
  | some s => if s = "" then b else some s
  | none => b

/-- Python `a or d` producing a string, where None and the empty string are
falsy. -/
def pyOrD (a : Option String) (d : String) : String :=
  match a with
  | some s => if s = "" then d else s
  | none => d

/-- Python truthiness of an optional string: None and the empty string are
falsy. -/
def pyTruthyOpt (a : Option String) : Bool :=
  match a with
  | some s => s ≠ ""
  | none => false

/-- Value of a list of decimal digit characters. -/
def digitsVal (l : List Char) : Nat :=
  l.foldl (fun a c => a * 10 + (c.toNat - 48)) 0

/-- Decimal characters of a natural number, fuel-bounded by the number
itself. -/
def natDigitsAux : Nat → Nat → List Char
  | 0, _ => []
  | fuel + 1, n =>
    if n < 10 then [Char.ofNat (48 + n)]
    else natDigitsAux fuel (n / 10) ++ [Char.ofNat (48 + n % 10)]

/-- Python str of a natural number. -/
def natToString (n : Nat) : String :=
  ⟨natDigitsAux (n + 1) n⟩

/-- Python f-string {n:05d}: decimal digits left-padded with zeros to width
five. -/
def pad5 (n : Nat) : String :=
  ⟨List.replicate (5 - (natToString n).data.length) '0' ++ (natToString n).data⟩

/-- Python float() of a string for finite decimal literals: optional
surrounding whitespace, optional sign, digits with an optional fractional
part.  Other inputs raise ValueError, modelled as none. -/
def pyFloatCore (l : List Char) : Option ℚ :=
  let ip := l.takeWhile Char.isDigit
  let rest := l.dropWhile Char.isDigit
  match rest with
  | [] => if ip = [] then none else some ((digitsVal ip : ℚ))
  | '.' :: frac =>
    let fp := frac.takeWhile Char.isDigit
    let rest2 := frac.dropWhile Char.isDigit
    if rest2 = [] && !(ip = [] && fp = []) then
      some ((digitsVal ip : ℚ) + (digitsVal fp : ℚ) / ((10 : ℚ) ^ fp.length))
    else none
  | _ => none

/-- Python float() applied to a string. -/
def pyFloatOfString (s : String) : Option ℚ :=
  let t := stripChars isPyWhitespace s.data
  match t with
  | '-' :: rest => (pyFloatCore rest).map (fun q => -q)
  | '+' :: rest => pyFloatCore rest
  | _ => pyFloatCore t

/-- Python int() truncation toward zero of a rational. -/
def ratTrunc (q : ℚ) : Int :=
  q.num.tdiv (q.den : Int)

/-- JSON values as delivered by response.json() for the fields modelled
here. -/
inductive JsonVal where
  | null
  | int (n : Int)
  | str (s : String)
  | obj (fields : List (String × JsonVal))

/-- Python float() applied to a decoded JSON value: numbers convert,
numeric strings parse, None and dicts raise TypeError, non-numeric strings
raise ValueError; failures are modelled as none. -/
def pyFloatOfJson : JsonVal → Option ℚ
  | .int n => some ((n : ℚ))
  | .str s => pyFloatOfString s
  | .null => none
  | .obj _ => none

/-- The static helper _safe_int of client.py: int(float(value)) with
TypeError and ValueError mapped to None.  The argument none models a missing
field (Python None). -/
def _safe_int : Option JsonVal → Option Int
  | none => none
  | some v => (pyFloatOfJson v).map ratTrunc

/-- The length normalization inside fetch_broadcast (client.py lines
141-147 together with line 165): the raw length field becomes
int(float(length)) when that succeeds and an absent duration otherwise;
the resulting integer is stored unchanged in duration_seconds. -/
def fetchBroadcastDuration (lengthField : Option JsonVal) : Option Int :=
  match lengthField with
  | none => none
  | some v => (pyFloatOfJson v).map ratTrunc

/-- Broadcast metadata value of client.py. -/
structure Broadcast where
  id : String
  permlink : String
  title : String
  creator_name : String
  playback_url : String
  created_at_ms : Option Int
  duration_seconds : Option Int
deriving Repr, DecidableEq

/-- A downloadable variant of a broadcast stream, as in client.py. -/
structure StreamVariant where
  index : Nat
  playlist_url : String
  quality_label : String
  resolution : Option String
  bandwidth : Option Int
deriving Repr, DecidableEq

/-- Errors raised on the modelled paths of client.py. -/
inductive PyErr where
  | playlistError (msg : String)
  | httpError
  | osError
deriving Repr, DecidableEq

/-- Bandwidth extraction of _parse_master_playlist: a truthy attribute
string is parsed with int(float(.)), a ValueError discarding the value. -/
def toBandwidth (b : Option String) : Option Int :=
  match b with
  | some s => if s = "" then none else (pyFloatOfString s).map ratTrunc
  | none => none

/-- Construction of one StreamVariant from a stream-info line, its
following URL line and the number of stream-info lines already seen,
mirroring the loop body of _parse_master_playlist. -/
def mkVariant (base line next : String) (idx : Nat) : StreamVariant :=
  let attrs := _parse_attributes line
  let resolution := dictGet "RESOLUTION" attrs
  let quality := pyOr (pyOr (dictGet "VIDEO" attrs) (dictGet "NAME" attrs)) (dictGet "RESOLUTION" attrs)
  let bandwidth := pyOr (dictGet "AVERAGE-BANDWIDTH" attrs) (dictGet "BANDWIDTH" attrs)
  { index := idx + 1
    playlist_url := urljoin base next
    quality_label := pyOrD quality ("Variant " ++ natToString (idx + 1))
    resolution := resolution
    bandwidth := toBandwidth bandwidth }

/-- Stripped non-blank lines of a playlist text, as prepared by
_parse_master_playlist. -/
def prepMasterLines (text : String) : List String :=
  ((pySplitlines text).map pyStrip).filter (fun l => l ≠ "")

/-- The enumeration loop of _parse_master_playlist: every line starting
with the stream-info marker consumes the immediately following line as its
variant URL (an absent following line raises PlaylistError); idx counts the
stream-info lines already handled. -/
def masterLoop (base : String) : List String → Nat → Except PyErr (List StreamVariant)
  | [], _ => .ok []
  | line :: rest, idx =>
    if strStartsWith line "#EXT-X-STREAM-INF" then
      match rest with
      | [] => .error (.playlistError "Malformed master playlist: missing variant URL")
      | next :: _ =>
        match masterLoop base rest (idx + 1) with
        | .error e => .error e
        | .ok vs => .ok (mkVariant base line next idx :: vs)
    else masterLoop base rest idx

/-- The method _parse_master_playlist of client.py. -/
def _parse_master_playlist (text base : String) : Except PyErr (List StreamVariant) :=
  match masterLoop base (prepMasterLines text) 0 with
  | .error e => .error e
  | .ok [] => .error (.playlistError "No variants found in master playlist.")
  | .ok vs => .ok vs

/-- Number of stream-info lines among the prepared lines of a master
playlist. -/
def countStreamInf (lines : List String) : Nat :=
  (lines.filter (fun l => strStartsWith l "#EXT-X-STREAM-INF")).length

/-- True when the last prepared line of a master playlist starts with the
stream-info marker, i.e. when some stream-info line has no following URL
line. -/
def lastIsStreamInf (lines : List String) : Bool :=
  strStartsWith ((lines.getLast?).getD "") "#EXT-X-STREAM-INF"

/-- One iteration of the line loop of _parse_media_playlist, acting on the
accumulated (init URL, segment URLs) state. -/
def mediaLine (base : String) (st : Option String × List String) (line : String) :
    Option String × List String :=
  let stripped := pyStrip line
  if stripped = "" then st
  else if strStartsWith stripped "#EXT-X-MAP" then
    match dictGet "URI" (_parse_attributes stripped) with
    | some uri => if uri = "" then st else (some (urljoin base uri), st.2)
    | none => st
  else if strStartsWith stripped "#" then st
  else (st.1, st.2 ++ [urljoin base stripped])

/-- The method _parse_media_playlist of client.py: returns the recorded
init segment URL, if any, and the segment URLs in file order.  URL
resolution here is the total core urljoin; _parse_media_playlist_checked
below propagates the ValueError of the library resolution instead of
collapsing it. -/
def _parse_media_playlist (text base : String) : Option String × List String :=
  (pySplitlines text).foldl (mediaLine base) (none, [])

/-- Per-line segment contribution of _parse_media_playlist: a stripped
non-blank non-comment line resolved against the base URL. -/
def mediaSegSpec (base line : String) : Option String :=
  let stripped := pyStrip line
  if stripped = "" then none
  else if strStartsWith stripped "#EXT-X-MAP" then none
  else if strStartsWith stripped "#" then none
  else some (urljoin base stripped)

/-- Per-line init contribution of _parse_media_playlist, resolved against
the base URL: a map-marker line whose attributes carry a truthy URI. -/
def mediaUriSpec (base line : String) : Option String :=
  let stripped := pyStrip line
  if stripped = "" then none
  else if strStartsWith stripped "#EXT-X-MAP" then
    match dictGet "URI" (_parse_attributes stripped) with
    | some uri => if uri = "" then none else some (urljoin base uri)
    | none => none
  else none

/-- Per-line init contribution of _parse_media_playlist before URL
resolution: the raw truthy URI attribute of a map-marker line. -/
def mediaUriRawSpec (line : String) : Option String :=
  let stripped := pyStrip line
  if stripped = "" then none
  else if strStartsWith stripped "#EXT-X-MAP" then
    match dictGet "URI" (_parse_attributes stripped) with
    | some uri => if uri = "" then none else some uri
    | none => none
  else none

/-- Last element of a list, with a fallback used when the list is empty. -/
def lastOr (i0 : Option String) (us : List String) : Option String :=
  match us.getLast? with
  | some u => some u
  | none => i0

/-- Characters kept by the slugify sanitization regex: letters, digits,
dot, underscore and hyphen. -/
def isSafeChar (c : Char) : Bool :=
  ('A' ≤ c && c ≤ 'Z') || ('a' ≤ c && c ≤ 'z') || ('0' ≤ c && c ≤ '9') ||
    c = '.' || c = '_' || c = '-'

/-- Regex substitution of the slugify pattern: every maximal run of
characters outside the safe set is replaced by a single hyphen.  The flag
records whether the previous character belonged to such a run. -/
def subInvalidAux : Bool → List Char → List Char
  | _, [] => []
  | inRun, c :: rest =>
    if isSafeChar c then c :: subInvalidAux false rest
    else if inRun then subInvalidAux true rest
    else '-' :: subInvalidAux true rest

/-- The function slugify of client.py. -/
def slugify (value : String) : String :=
  let v := if value = "" then "video" else value
  let sanitized : List Char := subInvalidAux false (stripChars isPyWhitespace v.data)
  let stripped : List Char := stripChars (fun c => c = '-' || c = '_') sanitized
  let result : List Char := if stripped = [] then "video".data else stripped
  ⟨result.take 150⟩

/-- The static method _build_filename of client.py. -/
def _build_filename (b : Broadcast) (v : StreamVariant) (extension : String) : String :=
  let title_slug := slugify b.title
  let creator_slug := slugify b.creator_name
  let variant_slug := slugify (pyOrD (pyOr (some v.quality_label) v.resolution) "variant")
  let suffix := if strStartsWith extension "." then extension else "." ++ extension
  creator_slug ++ "_" ++ title_slug ++ "_" ++ variant_slug ++ suffix

/-- Component of a path after the last slash. -/
def fileNamePart (p : String) : String :=
  ⟨(p.data.reverse.takeWhile (fun c => c ≠ '/')).reverse⟩

/-- Index of the last dot of a file name, if any. -/
def lastDotIdx (n : List Char) : Option Nat :=
  let fromEnd := n.reverse.takeWhile (fun c => c ≠ '.')
  if fromEnd.length = n.length then none else some (n.length - fromEnd.length - 1)

/-- pathlib Path.suffix: the file name from its last dot on, provided that
dot is neither the leading nor the trailing character of the name. -/
def pathSuffix (p : String) : String :=
  let n := (fileNamePart p).data
  match lastDotIdx n with
  | none => ""
  | some i => if 0 < i && i < n.length - 1 then ⟨n.drop i⟩ else ""

/-- pathlib Path.with_suffix: the path with its suffix replaced. -/
def withSuffix (p suf : String) : String :=
  ⟨p.data.take (p.data.length - (pathSuffix p).data.length) ++ suf.data⟩

/-- pathlib path joining with the slash operator. -/
def pathJoin (dir name : String) : String :=
  dir ++ "/" ++ name

/-- One reported progress callback invocation. -/
structure ProgressEvent where
  completed : Nat
  total : Nat
  stage : String
deriving Repr, DecidableEq

/-- Oracle fixing the outcome of every external call a download_variant
invocation performs: the media playlist fetch, each numbered part download,
each numbered merge write, the ffmpeg lookup and the remux exit code. -/
structure NetEnv where
  playlistText : Except Unit String
  downloadOk : Nat → Bool
  mergeWriteOk : Nat → Bool
  ffmpegAvailable : Bool
  remuxReturncode : Int

/-- Filesystem observations tracked alongside a download_variant run. -/
structure FsState where
  scratchExists : Bool
  scratchEverCreated : Bool
  scratchFiles : List String
  mergeTargetExists : Bool
  remuxInvoked : Bool
  segmentDownloads : Nat
deriving Repr, DecidableEq

/-- Filesystem observations before a run. -/
def initFs : FsState :=
  { scratchExists := false
    scratchEverCreated := false
    scratchFiles := []
    mergeTargetExists := false
    remuxInvoked := false
    segmentDownloads := 0 }

/-- State of the part-download loop of download_variant. -/
structure PartLoop where
  partIndex : Nat
  fs : FsState
  events : List ProgressEvent
deriving Repr, DecidableEq

/-- One part download of download_variant: the part counter advances, the
network call is counted, and on success the numbered file appears in the
scratch directory and a segments progress event is reported.  A failed call
raises the transport error. -/
def downloadOne (env : NetEnv) (total : Nat) (isInit : Bool) (st : PartLoop) :
    PartLoop × Option PyErr :=
  let idx := st.partIndex + 1
  let name := if isInit then pad5 idx ++ "_init.mp4" else pad5 idx ++ ".ts"
  let fs1 := { st.fs with segmentDownloads := st.fs.segmentDownloads + 1 }
  if env.downloadOk idx then
    ({ partIndex := idx
       fs := { fs1 with scratchFiles := fs1.scratchFiles ++ [name] }
       events := st.events ++ [⟨idx, total, "segments"⟩] }, none)
  else
    ({ st with fs := fs1 }, some .httpError)

/-- The segment loop of download_variant over the segment URL list. -/
def downloadParts (env : NetEnv) (total : Nat) : List String → PartLoop → PartLoop × Option PyErr
  | [], st => (st, none)
  | _ :: rest, st =>
    match downloadOne env total false st with
    | (st1, none) => downloadParts env total rest st1
    | (st1, some e) => (st1, some e)

/-- The copy loop of _merge_segments: each successful per-part write
reports a merge progress event; a failed write raises OSError. -/
def mergeParts (env : NetEnv) (total : Nat) :
    List String → Nat → List ProgressEvent → List ProgressEvent × Option PyErr
  | [], _, evs => (evs, none)
  | _ :: rest, i, evs =>
    if env.mergeWriteOk (i + 1) then
      mergeParts env total rest (i + 1) (evs ++ [⟨i + 1, total, "merge"⟩])
    else (evs, some .osError)

/-- The method _remux_ts_to_mp4 of client.py: with no ffmpeg on the path
the transport-stream path is returned unchanged; otherwise a remux start
event is reported and the tool is run; a non-zero exit returns the
transport-stream path, and success deletes it, reports the remux completion
event and returns the final path. -/
def _remux_ts_to_mp4 (env : NetEnv) (ts_path final_path : String) (fs : FsState)
    (evs : List ProgressEvent) : String × FsState × List ProgressEvent :=
  if env.ffmpegAvailable = false then (ts_path, fs, evs)
  else
    let evs1 := evs ++ [⟨0, 1, "remux"⟩]
    let fs1 := { fs with remuxInvoked := true }
    if env.remuxReturncode ≠ 0 then (ts_path, fs1, evs1)
    else
      (final_path, { fs1 with mergeTargetExists := false }, evs1 ++ [⟨1, 1, "remux"⟩])

/-- The try block of download_variant: optional init part, segment parts,
merge, optional remux. -/
def tryBody (env : NetEnv) (init_url : Option String) (segment_urls : List String)
    (total_segments : Nat) (needs_remux : Bool) (merge_target final_path : String)
    (fs0 : FsState) : Except PyErr String × FsState × List ProgressEvent :=
  let st0 : PartLoop := ⟨0, fs0, []⟩
  let r1 := if pyTruthyOpt init_url then downloadOne env total_segments true st0 else (st0, none)
  match r1.2 with
  | some e => (.error e, r1.1.fs, r1.1.events)
  | none =>
    let r2 := downloadParts env total_segments segment_urls r1.1
    match r2.2 with
    | some e => (.error e, r2.1.fs, r2.1.events)
    | none =>
      let nFiles := r2.1.fs.scratchFiles.length
      let fsM := { r2.1.fs with mergeTargetExists := true }
      let rm := mergeParts env nFiles r2.1.fs.scratchFiles 0 []
      match rm.2 with
      | some e => (.error e, fsM, r2.1.events ++ rm.1)
      | none =>
        if needs_remux then
          let rr := _remux_ts_to_mp4 env merge_target final_path fsM (r2.1.events ++ rm.1)
          (.ok rr.1, rr.2.1, rr.2.2)
        else (.ok merge_target, fsM, r2.1.events ++ rm.1)

/-- Resolution of the final artifact name in download_variant: the caller's
filename when truthy, else the synthesized default; a missing suffix is
completed with the default container extension. -/
def resolveFinalName (b : Broadcast) (v : StreamVariant) (filename : Option String) : String :=
  let n := pyOrD filename (_build_filename b v ".mp4")
  if pathSuffix n = "" then n ++ ".mp4" else n

/-- Final artifact path of download_variant. -/
def finalPathOf (b : Broadcast) (v : StreamVariant) (output_directory : String)
    (filename : Option String) : String :=
  pathJoin output_directory (resolveFinalName b v filename)

/-- Outcome of a download_variant run: its result or raised error, the
final filesystem observations and the reported progress events. -/
structure DownloadOutcome where
  result : Except PyErr String
  fs : FsState
  events : List ProgressEvent
deriving Repr

/-- The method download_variant of client.py over the external-call oracle:
fetch and parse the media playlist, reject a partless playlist, decide the
remux strategy from the playlist kind and the final suffix, create the
scratch directory, run the pipeline and remove the scratch directory on
every exit path of the try block. -/
def download_variant (env : NetEnv) (b : Broadcast) (v : StreamVariant)
    (output_directory : String) (filename : Option String) : DownloadOutcome :=
  let final_path := finalPathOf b v output_directory filename
  match env.playlistText with
  | .error _ => ⟨.error .httpError, initFs, []⟩
  | .ok playlist_text =>
    let parsed := _parse_media_playlist playlist_text v.playlist_url
    let init_url := parsed.1
    let segment_urls := parsed.2
    let total_segments := segment_urls.length + (if pyTruthyOpt init_url then 1 else 0)
    if segment_urls.length = 0 ∧ pyTruthyOpt init_url = false then
      ⟨.error (.playlistError "Media playlist did not contain any segments."), initFs, []⟩
    else
      let is_ts_playlist := init_url.isNone
      let needs_remux := is_ts_playlist && (lowerStr (pathSuffix final_path) = ".mp4")
      let merge_target := if needs_remux then withSuffix final_path ".ts" else final_path
      let fs0 : FsState := { initFs with scratchExists := true, scratchEverCreated := true }
      let r := tryBody env init_url segment_urls total_segments needs_remux merge_target
        final_path fs0
      ⟨r.1, { r.2.1 with scratchExists := false, scratchFiles := [] }, r.2.2⟩

/-- Retry configuration constructed in _create_retrying_session. -/
structure RetryConfig where
  total : Nat
  connect : Nat
  read : Nat
  backoff_factor : ℚ
  status_forcelist : List Nat
  allowed_methods : List String
deriving Repr, DecidableEq

/-- The Retry object of _create_retrying_session. -/
def retryConfig : RetryConfig :=
  { total := 5
    connect := 5
    read := 5
    backoff_factor := 1 / 2
    status_forcelist := [429, 500, 502, 503, 504]
    allowed_methods := ["GET", "POST"] }

/-- Outcome of one HTTP attempt. -/
inductive AttemptOutcome where
  | success
  | connectError
  | readError
  | httpStatus (code : Nat)
deriving Repr, DecidableEq

/-- Whether urllib3 retries after the given attempt outcome under the
configured policy: connection and read failures always, HTTP responses
exactly when their status is in the forcelist. -/
def isRetryableOutcome (cfg : RetryConfig) : AttemptOutcome → Bool
  | .success => false
  | .connectError => true
  | .readError => true
  | .httpStatus c => decide (c ∈ cfg.status_forcelist)

/-- Models the urllib3 Retry request loop for the session of
_create_retrying_session: the attempt at index i is performed, a
non-retryable outcome is delivered immediately, and a retryable outcome
consumes one unit of the retry budget, none signalling an exhausted budget
(MaxRetryError).  Returns the number of attempts performed and the
delivered outcome. -/
def retryRun (cfg : RetryConfig) (out : Nat → AttemptOutcome) :
    Nat → Nat → Nat × Option AttemptOutcome
  | i, budget =>
    if isRetryableOutcome cfg (out i) then
      match budget with
      | 0 => (1, none)
      | b + 1 =>
        let r := retryRun cfg out (i + 1) b
        (r.1 + 1, r.2)
    else (1, some (out i))

/-- A request through the session of _create_retrying_session: the retry
loop starting with the full configured budget. -/
def sessionAttempts (out : Nat → AttemptOutcome) : Nat × Option AttemptOutcome :=
  retryRun retryConfig out 0 retryConfig.total

/-- Position of a progress stage in the fixed stage order. -/
def stageIdx (s : String) : Nat :=
  if s = "segments" then 0 else if s = "merge" then 1 else 2

/-- Admissible succession of two adjacent progress events: either the stage
advances in the fixed order, or the stage is unchanged with a
non-decreasing completed count and an unchanged total. -/
def ProgOk (a b : ProgressEvent) : Prop :=
  stageIdx a.stage < stageIdx b.stage ∨
    (a.stage = b.stage ∧ a.completed ≤ b.completed ∧ a.total = b.total)

/-- The events of one stage, in report order. -/
def stageEvents (evs : List ProgressEvent) (s : String) : List ProgressEvent :=
  evs.filter (fun e => e.stage = s)

/-- The last event of a stage, when the stage reported at all, carries
completed equal to total. -/
def stageCompleted (evs : List ProgressEvent) (s : String) : Prop :=
  ∀ e, (stageEvents evs s).getLast? = some e → e.completed = e.total

/-- Segment-stage progress events for part indices a, a+1, ... of k parts,
with the given constant total. -/
def segEvts (a k total : Nat) : List ProgressEvent :=
  (List.range' a k).map (fun i => ⟨i, total, "segments"⟩)

/-- Merge-stage progress events for part indices 1..k with the given
constant total. -/
def mergeEvts (k total : Nat) : List ProgressEvent :=
  (List.range' 1 k).map (fun j => ⟨j, total, "merge"⟩)

/-- Concrete oracle used by witnesses: a two-segment transport-stream
media playlist, all downloads and merge writes succeed, ffmpeg available
with exit code zero. -/
def sampleEnv : NetEnv :=
  { playlistText := .ok "#EXTM3U\nseg1.ts\nseg2.ts\n"
    downloadOk := fun _ => true
    mergeWriteOk := fun _ => true
    ffmpegAvailable := true
    remuxReturncode := 0 }

/-- Concrete broadcast used by witnesses. -/
def sampleBroadcast : Broadcast :=
  { id := "id1"
    permlink := "perm"
    title := "My Title"
    creator_name := "Someone*"
    playback_url := "https://h.tv/a/master.m3u8"
    created_at_ms := none
    duration_seconds := none }

/-- Concrete stream variant used by witnesses. -/
def sampleVariant : StreamVariant :=
  { index := 1
    playlist_url := "https://h.tv/a/p.m3u8"
    quality_label := "1080p"
    resolution := some "1920x1080"
    bandwidth := some 1280000 }

/-- Characters allowed in a URL scheme by urllib.parse: ASCII letters,
digits, plus, hyphen and dot. -/
def isSchemeChar (c : Char) : Bool :=
  ('A' ≤ c && c ≤ 'Z') || ('a' ≤ c && c ≤ 'z') || ('0' ≤ c && c ≤ '9') ||
    c = '+' || c = '-' || c = '.'

/-- ASCII letter test, as used by the scheme check of urlsplit. -/
def isAsciiAlpha (c : Char) : Bool :=
  ('A' ≤ c && c ≤ 'Z') || ('a' ≤ c && c ≤ 'z')

/-- Scheme stripping of urllib.parse.urlsplit: when the first colon sits at
a positive position and everything before it is an ASCII letter followed by
scheme characters, the text after the colon remains; otherwise the input is
unchanged. -/
def stripScheme (l : List Char) : List Char :=
  let pre := l.takeWhile (fun c => c ≠ ':')
  match l.dropWhile (fun c => c ≠ ':') with
  | ':' :: rest =>
    if pre ≠ [] && pre.all isSchemeChar &&
        (match pre with | c :: _ => isAsciiAlpha c | [] => false) then rest
    else l
  | _ => l

/-- Netloc extraction of urlsplit: for input starting with a double slash,
the text up to the first slash, question mark or hash; none otherwise. -/
def netlocOf : List Char → Option (List Char)
  | '/' :: '/' :: rest => some (rest.takeWhile (fun c => c ≠ '/' && c ≠ '?' && c ≠ '#'))
  | _ => none

/-- Unbalanced-bracket validation of urllib.parse.urlsplit: a netloc
containing exactly one of the two bracket characters makes urlsplit raise
ValueError (Invalid IPv6 URL).  Later CPython revisions validate bracketed
hosts further; this models the check present in every revision. -/
def invalidIPv6 (s : String) : Bool :=
  match netlocOf (stripScheme s.data) with
  | some n => (n.contains '[' && !(n.contains ']')) || (n.contains ']' && !(n.contains '['))
  | none => false

/-- Models urllib.parse.urljoin including its error path: an empty base or
an empty reference short-circuits without any parsing; otherwise urlsplit
runs on the base and then on the reference, raising
ValueError (Invalid IPv6 URL) on an unbalanced bracketed netloc; when
neither raises, the resolution is the total core urljoin. -/
def pyUrljoinE (base ref : String) : Except String String :=
  if base = "" then Except.ok ref
  else if ref = "" then Except.ok base
  else if invalidIPv6 base then Except.error "Invalid IPv6 URL"
  else if invalidIPv6 ref then Except.error "Invalid IPv6 URL"
  else Except.ok (urljoin base ref)

/-- One iteration of the line loop of _parse_media_playlist with the
ValueError of the URL resolution propagated instead of collapsed. -/
def mediaLineE (base : String) (st : Option String × List String) (line : String) :
    Except String (Option String × List String) :=
  let stripped := pyStrip line
  if stripped = "" then Except.ok st
  else if strStartsWith stripped "#EXT-X-MAP" then
    match dictGet "URI" (_parse_attributes stripped) with
    | some uri =>
      if uri = "" then Except.ok st
      else
        match pyUrljoinE base uri with
        | Except.error e => Except.error e
        | Except.ok u => Except.ok (some u, st.2)
    | none => Except.ok st
  else if strStartsWith stripped "#" then Except.ok st
  else
    match pyUrljoinE base stripped with
    | Except.error e => Except.error e
    | Except.ok u => Except.ok (st.1, st.2 ++ [u])

/-- Line loop of _parse_media_playlist with error propagation: the loop
stops at the first raising resolution. -/
def mediaLinesE (base : String) : List String → Option String × List String →
    Except String (Option String × List String)
  | [], st => Except.ok st
  | l :: ls, st =>
    match mediaLineE base st l with
    | Except.error e => Except.error e
    | Except.ok st2 => mediaLinesE base ls st2

/-- The method _parse_media_playlist of client.py with the ValueError of
urllib.parse.urljoin made explicit: a raising URL resolution escapes the
parser as the exception instead of being absorbed. -/
def _parse_media_playlist_checked (text base : String) :
    Except String (Option String × List String) :=
  mediaLinesE base (pySplitlines text) (none, [])

/-! Helper lemmas. -/

theorem mem_stripChars {bad : Char → Bool} {l : List Char} {c : Char}
    (h : c ∈ stripChars bad l) : c ∈ l := by
  unfold stripChars at h
  rw [List.mem_reverse] at h
  have h1 := (List.dropWhile_sublist bad).mem h
  rw [List.mem_reverse] at h1
  exact (List.dropWhile_sublist bad).mem h1

theorem mem_subInvalidAux {c : Char} :
    ∀ (flag : Bool) (l : List Char), c ∈ subInvalidAux flag l → isSafeChar c = true := by
  intro flag l
  induction l generalizing flag with
  | nil => intro h; simp [subInvalidAux] at h
  | cons d rest ih =>
    intro h
    unfold subInvalidAux at h
    by_cases hd : isSafeChar d = true
    · rw [if_pos hd] at h
      rcases List.mem_cons.mp h with h1 | h1
      · exact h1 ▸ hd
      · exact ih false h1
    · rw [if_neg hd] at h
      by_cases hf : flag = true
      · rw [hf, if_pos rfl] at h
        exact ih true h
      · rw [Bool.not_eq_true] at hf
        rw [hf] at h
        simp only [Bool.false_eq_true, if_false] at h
        rcases List.mem_cons.mp h with h1 | h1
        · subst h1; decide
        · exact ih true h1

theorem ratTrunc_intCast (n : Int) : ratTrunc ((n : ℚ)) = n := by
  unfold ratTrunc
  rw [Rat.num_intCast, Rat.den_intCast]
  simp [Int.tdiv_one n]

/-! C5: length/duration normalization in fetch_broadcast. -/

/-- C5 counterexample: a length field arriving as a nested object with a
seconds field does not normalize to the integer 125 as the claim states; in
fetch_broadcast, float() of a dict raises TypeError, which the handler maps
to an absent duration. -/
theorem fetchBroadcastDuration_obj_counterexample :
    fetchBroadcastDuration (some (.obj [("seconds", .int 125)])) = none ∧
      fetchBroadcastDuration (some (.obj [("seconds", .int 125)])) ≠ some 125 := by
  constructor
  · rfl
  · intro h
    simp [fetchBroadcastDuration, pyFloatOfJson] at h

/-- C5 amended: in fetch_broadcast, a length field arriving as a bare
number or as a numeric string normalizes to the integer it denotes
(for example 125 and the string 125 both become 125), while a nested object
with a seconds field and an unparsable string such as abc both normalize to
an absent duration rather than a failure; the normalization agrees with the
helper _safe_int. -/
theorem fetchBroadcastDuration_normalizes :
    (∀ n : Int, fetchBroadcastDuration (some (.int n)) = some n) ∧
      fetchBroadcastDuration (some (.int 125)) = some 125 ∧
      fetchBroadcastDuration (some (.str "125")) = some 125 ∧
      fetchBroadcastDuration (some (.obj [("seconds", .int 125)])) = none ∧
      fetchBroadcastDuration (some (.str "abc")) = none ∧
      fetchBroadcastDuration none = none ∧
      ∀ v, fetchBroadcastDuration v = _safe_int v := by
  refine ⟨?_, by decide, by decide, rfl, by decide, rfl, ?_⟩
  · intro n
    simp [fetchBroadcastDuration, pyFloatOfJson, ratTrunc_intCast]
  · intro v
    cases v with
    | none => rfl
    | some j => rfl

/-! C7: retry policy of _create_retrying_session. -/

theorem retryRun_le (cfg : RetryConfig) (out : Nat → AttemptOutcome) :
    ∀ (budget i : Nat), (retryRun cfg out i budget).1 ≤ budget + 1 := by
  intro budget
  induction budget with
  | zero =>
    intro i
    rw [retryRun]
    split
    · exact Nat.le_refl 1
    · exact Nat.le_refl 1
  | succ b ih =>
    intro i
    rw [retryRun]
    split
    · have := ih (i + 1)
      simpa using Nat.succ_le_succ this
    · exact Nat.le_add_left 1 (b + 1)

theorem retryRun_pos (cfg : RetryConfig) (out : Nat → AttemptOutcome) :
    ∀ (budget i : Nat), 1 ≤ (retryRun cfg out i budget).1 := by
  intro budget
  induction budget with
  | zero =>
    intro i; rw [retryRun]; split
    · exact Nat.le_refl 1
    · exact Nat.le_refl 1
  | succ b ih =>
    intro i; rw [retryRun]; split
    · show 1 ≤ (retryRun cfg out (i + 1) b).1 + 1
      omega
    · exact Nat.le_refl 1

/-- C7 counterexample: the session retry policy does not retry every 5xx
status: 501 is a 5xx status outside the configured forcelist, so a 501
response is delivered after a single attempt; and a persistently retryable
status such as 503 is attempted 6 times in total, not 5. -/
theorem retryPolicy_counterexample :
    (500 ≤ 501 ∧ 501 < 600 ∧
      isRetryableOutcome retryConfig (.httpStatus 501) = false ∧
      sessionAttempts (fun _ => .httpStatus 501) = (1, some (.httpStatus 501))) ∧
    (sessionAttempts (fun _ => .httpStatus 503)).1 = 6 := by
  refine ⟨⟨by omega, by omega, by decide, by decide⟩, by decide⟩

/-- C7 amended: every request through the session of
_create_retrying_session performs at most 5 retries after the initial
attempt (hence at most 6 attempts in total), with a configured backoff
factor of one half; a retryable first outcome (a connection failure, a read
failure, or an HTTP status in the forcelist 429, 500, 502, 503, 504) leads
to at least a second attempt, while a non-retryable outcome, including any
other 4xx or 5xx status, is delivered immediately after one attempt. -/
theorem retryPolicy_bounded (out : Nat → AttemptOutcome) :
    (sessionAttempts out).1 ≤ retryConfig.total + 1 ∧
      (isRetryableOutcome retryConfig (out 0) = false →
        sessionAttempts out = (1, some (out 0))) ∧
      (isRetryableOutcome retryConfig (out 0) = true → 2 ≤ (sessionAttempts out).1) ∧
      (∀ c, isRetryableOutcome retryConfig (.httpStatus c) = true ↔
        c ∈ retryConfig.status_forcelist) ∧
      isRetryableOutcome retryConfig .connectError = true ∧
      isRetryableOutcome retryConfig .readError = true ∧
      retryConfig.status_forcelist = [429, 500, 502, 503, 504] ∧
      retryConfig.backoff_factor = 1 / 2 := by
  refine ⟨retryRun_le retryConfig out retryConfig.total 0, ?_, ?_, ?_, by decide, by decide, rfl, rfl⟩
  · intro h
    have e : sessionAttempts out = retryRun retryConfig out 0 5 := rfl
    rw [e, retryRun, h]
    simp
  · intro h
    have e : sessionAttempts out = retryRun retryConfig out 0 5 := rfl
    rw [e, retryRun, h]
    simp only [if_true]
    show 2 ≤ (retryRun retryConfig out 1 4).1 + 1
    have := retryRun_pos retryConfig out 4 1
    omega
  · intro c
    simp [isRetryableOutcome]

/-- C7 witness: a request answered with 503 on every attempt is attempted
at least twice and at most 6 times; a request answered 404 is delivered
after exactly one attempt. -/
theorem retryPolicy_bounded_witness :
    (sessionAttempts (fun _ => .httpStatus 503)).1 ≤ retryConfig.total + 1 ∧
      2 ≤ (sessionAttempts (fun _ => .httpStatus 503)).1 ∧
      sessionAttempts (fun _ => .httpStatus 404) = (1, some (.httpStatus 404)) :=
  ⟨(retryPolicy_bounded (fun _ => .httpStatus 503)).1,
    (retryPolicy_bounded (fun _ => .httpStatus 503)).2.2.1 (by decide),
    (retryPolicy_bounded (fun _ => .httpStatus 404)).2.1 (by decide)⟩

/-! C9: slugify and the synthesized default filename. -/

theorem slugify_data (s : String) :
    ∃ l : List Char, (slugify s).data = l.take 150 ∧ l ≠ [] ∧
      ∀ c ∈ l, isSafeChar c = true := by
  unfold slugify
  by_cases h : stripChars (fun c => c = '-' || c = '_')
      (subInvalidAux false (stripChars isPyWhitespace (if s = "" then "video" else s).data)) = []
  · refine ⟨"video".data, ?_, by decide, by decide⟩
    simp only [h, if_pos rfl]
    rfl
  · refine ⟨_, ?_, h, ?_⟩
    · simp only [if_neg h]
    · intro c hc
      exact mem_subInvalidAux false _ (mem_stripChars hc)

/-- C9: slugify always produces a non-empty name of at most 150 characters
drawn from the safe character set (letters, digits, dot, underscore and
hyphen), falling back to a default token when nothing valid survives; and
the synthesized default filename of _build_filename is the three sanitized
tokens creator, title and quality joined by underscores with the container
extension appended. -/
theorem slugify_safe_filename :
    (∀ s : String, slugify s ≠ "" ∧ (slugify s).length ≤ 150 ∧
      ∀ c ∈ (slugify s).data, isSafeChar c = true) ∧
    ∀ (b : Broadcast) (v : StreamVariant),
      _build_filename b v ".mp4" =
        slugify b.creator_name ++ "_" ++ slugify b.title ++ "_" ++
          slugify (pyOrD (pyOr (some v.quality_label) v.resolution) "variant") ++ ".mp4" := by
  constructor
  · intro s
    obtain ⟨l, hd, hne, hsafe⟩ := slugify_data s
    refine ⟨?_, ?_, ?_⟩
    · intro h0
      apply hne
      have hdata : (slugify s).data = [] := by rw [h0]
      rw [hd] at hdata
      rcases List.take_eq_nil_iff.mp hdata with h | h
      · exact absurd h (by omega)
      · exact h
    · show (slugify s).data.length ≤ 150
      rw [hd, List.length_take]
      exact Nat.min_le_left _ _
    · intro c hc
      rw [hd] at hc
      exact hsafe c (List.mem_of_mem_take hc)
  · intro b v
    have h1 : strStartsWith ".mp4" "." = true := rfl
    simp [_build_filename, h1]

/-! C4: master playlist parsing, dense 1-based indices. -/

theorem masterLoop_spec (base : String) :
    ∀ (lines : List String) (idx : Nat),
    (∀ l, lines.getLast? = some l → strStartsWith l "#EXT-X-STREAM-INF" = false) →
    ∃ vs, masterLoop base lines idx = .ok vs ∧
      vs.length = countStreamInf lines ∧
      vs.map (fun u => u.index) = List.range' (idx + 1) (countStreamInf lines) := by
  intro lines
  induction lines with
  | nil =>
    intro idx h
    exact ⟨[], rfl, by simp [countStreamInf], by simp [countStreamInf]⟩
  | cons line rest ih =>
    intro idx h
    by_cases hm : strStartsWith line "#EXT-X-STREAM-INF" = true
    · cases rest with
      | nil =>
        exfalso
        have hlast := h line (by simp)
        rw [hlast] at hm
        exact Bool.false_ne_true hm
      | cons next r2 =>
        have h' : ∀ l, (next :: r2).getLast? = some l →
            strStartsWith l "#EXT-X-STREAM-INF" = false := by
          intro l hl
          exact h l (by rw [List.getLast?_cons_cons]; exact hl)
        obtain ⟨vs, hvs, hlen, hmap⟩ := ih (idx + 1) h'
        have hc1 : countStreamInf (line :: next :: r2) = countStreamInf (next :: r2) + 1 := by
          simp [countStreamInf, List.filter_cons, hm]
        refine ⟨mkVariant base line next idx :: vs, ?_, ?_, ?_⟩
        · rw [masterLoop, if_pos hm]
          show (match masterLoop base (next :: r2) (idx + 1) with
              | Except.error e => Except.error e
              | Except.ok vs2 => Except.ok (mkVariant base line next idx :: vs2)) =
            Except.ok (mkVariant base line next idx :: vs)
          rw [hvs]
        · rw [List.length_cons, hc1, hlen]
        · rw [hc1, List.range'_succ, List.map_cons, hmap]
          rfl
    · have hb : strStartsWith line "#EXT-X-STREAM-INF" = false := by
        rw [Bool.not_eq_true] at hm; exact hm
      have hc : countStreamInf (line :: rest) = countStreamInf rest := by
        simp [countStreamInf, List.filter_cons, hb]
      cases rest with
      | nil =>
        refine ⟨[], ?_, ?_, ?_⟩
        · simp [masterLoop, hb]
        · simp [countStreamInf, List.filter_cons, hb]
        · simp [countStreamInf, List.filter_cons, hb]
      | cons next r2 =>
        have h' : ∀ l, (next :: r2).getLast? = some l →
            strStartsWith l "#EXT-X-STREAM-INF" = false := by
          intro l hl
          exact h l (by rw [List.getLast?_cons_cons]; exact hl)
        obtain ⟨vs, hvs, hlen, hmap⟩ := ih idx h'
        refine ⟨vs, ?_, ?_, ?_⟩
        · simp only [masterLoop, hb, Bool.false_eq_true, if_false]
          exact hvs
        · rw [hc]; exact hlen
        · rw [hc]; exact hmap

/-- C4: on a master playlist in which every stream-info line is followed by
a further (non-blank) URL line, _parse_master_playlist raises PlaylistError
when there are zero stream-info lines, and otherwise returns exactly one
StreamVariant per stream-info line, carrying the dense 1-based indices
1..N in source order. -/
theorem parseMasterPlaylist_dense_indices (text base : String)
    (h : lastIsStreamInf (prepMasterLines text) = false) :
    (countStreamInf (prepMasterLines text) = 0 →
      _parse_master_playlist text base =
        .error (.playlistError "No variants found in master playlist.")) ∧
    (1 ≤ countStreamInf (prepMasterLines text) →
      ∃ vs, _parse_master_playlist text base = .ok vs ∧
        vs.length = countStreamInf (prepMasterLines text) ∧
        vs.map (fun u => u.index) = List.range' 1 (countStreamInf (prepMasterLines text))) := by
  have h' : ∀ l, (prepMasterLines text).getLast? = some l →
      strStartsWith l "#EXT-X-STREAM-INF" = false := by
    intro l hl
    unfold lastIsStreamInf at h
    rw [hl] at h
    simpa using h
  obtain ⟨vs, hvs, hlen, hmap⟩ := masterLoop_spec base (prepMasterLines text) 0 h'
  constructor
  · intro h0
    unfold _parse_master_playlist
    rw [hvs]
    have hnil : vs = [] := List.length_eq_zero.mp (by rw [hlen]; exact h0)
    rw [hnil]
  · intro h1
    refine ⟨vs, ?_, hlen, hmap⟩
    unfold _parse_master_playlist
    rw [hvs]
    cases vs with
    | nil =>
      exfalso
      rw [← hlen] at h1
      simp at h1
    | cons a t => rfl

/-- C4 witness: a concrete master playlist with two stream-info lines
yields exactly two variants with indices 1 and 2. -/
theorem parseMasterPlaylist_dense_indices_witness :
    ∃ vs, _parse_master_playlist "#EXTM3U\n#EXT-X-STREAM-INF:BANDWIDTH=1280000,NAME=\"1080p\"\nhigh/p.m3u8\n#EXT-X-STREAM-INF:BANDWIDTH=640000\nlow/p.m3u8\n" "https://h.tv/a/master.m3u8" = .ok vs ∧
      vs.length = 2 ∧ vs.map (fun u => u.index) = [1, 2] := by
  obtain ⟨vs, h1, h2, h3⟩ :=
    (parseMasterPlaylist_dense_indices "#EXTM3U\n#EXT-X-STREAM-INF:BANDWIDTH=1280000,NAME=\"1080p\"\nhigh/p.m3u8\n#EXT-X-STREAM-INF:BANDWIDTH=640000\nlow/p.m3u8\n" "https://h.tv/a/master.m3u8" (by decide)).2 (by decide)
  exact ⟨vs, h1, by rw [h2]; decide, by rw [h3]; decide⟩

/-! Media playlist characterization (shared by several claims). -/

theorem lastOr_cons (i0 : Option String) (x : String) (us : List String) :
    lastOr i0 (x :: us) = lastOr (some x) us := by
  cases us with
  | nil => simp [lastOr]
  | cons y t =>
    unfold lastOr
    rw [List.getLast?_cons_cons]
    cases hg : (y :: t).getLast? with
    | none => exact absurd (List.getLast?_eq_none_iff.mp hg) (by simp)
    | some u => rfl

theorem foldl_mediaLine (base : String) :
    ∀ (ls : List String) (i0 : Option String) (s0 : List String),
    List.foldl (mediaLine base) (i0, s0) ls =
      (lastOr i0 (ls.filterMap (mediaUriSpec base)), s0 ++ ls.filterMap (mediaSegSpec base)) := by
  intro ls
  induction ls with
  | nil =>
    intro i0 s0
    simp [lastOr]
  | cons hLine t ih =>
    intro i0 s0
    simp only [List.foldl_cons, List.filterMap_cons]
    by_cases h1 : pyStrip hLine = ""
    · simp [mediaLine, mediaUriSpec, mediaSegSpec, h1, ih]
    · by_cases h2 : strStartsWith (pyStrip hLine) "#EXT-X-MAP" = true
      · cases hd : dictGet "URI" (_parse_attributes (pyStrip hLine)) with
        | none => simp [mediaLine, mediaUriSpec, mediaSegSpec, h1, h2, hd, ih]
        | some uri =>
          by_cases h3 : uri = ""
          · simp [mediaLine, mediaUriSpec, mediaSegSpec, h1, h2, hd, h3, ih]
          · simp [mediaLine, mediaUriSpec, mediaSegSpec, h1, h2, hd, h3, ih, lastOr_cons]
      · by_cases h4 : strStartsWith (pyStrip hLine) "#" = true
        · simp [mediaLine, mediaUriSpec, mediaSegSpec, h1, h2, h4, ih]
        · simp [mediaLine, mediaUriSpec, mediaSegSpec, h1, h2, h4, ih]

theorem parse_media_spec (text base : String) :
    _parse_media_playlist text base =
      (lastOr none ((pySplitlines text).filterMap (mediaUriSpec base)),
        (pySplitlines text).filterMap (mediaSegSpec base)) := by
  unfold _parse_media_playlist
  rw [foldl_mediaLine]
  simp

theorem urljoin_empty_base (ref : String) : urljoin "" ref = ref := by
  unfold urljoin
  split
  · rfl
  · split
    · apply String.ext
      show hostRoot "".data ++ ref.data = ref.data
      rfl
    · apply String.ext
      show upToLastSlash "".data ++ ref.data = ref.data
      rfl

theorem pyUrljoinE_ok (base ref u : String) (href : ref ≠ "")
    (h : pyUrljoinE base ref = Except.ok u) : u = urljoin base ref := by
  unfold pyUrljoinE at h
  by_cases hb : base = ""
  · rw [if_pos hb] at h
    have h' : ref = u := Except.ok.inj h
    rw [← h', hb, urljoin_empty_base]
  · rw [if_neg hb, if_neg href] at h
    by_cases h1 : invalidIPv6 base = true
    · rw [if_pos h1] at h
      exact absurd h (by simp)
    · rw [if_neg h1] at h
      by_cases h2 : invalidIPv6 ref = true
      · rw [if_pos h2] at h
        exact absurd h (by simp)
      · rw [if_neg h2] at h
        exact (Except.ok.inj h).symm

theorem pyUrljoinE_error (base ref e : String)
    (h : pyUrljoinE base ref = Except.error e) : e = "Invalid IPv6 URL" := by
  unfold pyUrljoinE at h
  by_cases hb : base = ""
  · rw [if_pos hb] at h
    exact absurd h (by simp)
  · rw [if_neg hb] at h
    by_cases hr : ref = ""
    · rw [if_pos hr] at h
      exact absurd h (by simp)
    · rw [if_neg hr] at h
      by_cases h1 : invalidIPv6 base = true
      · rw [if_pos h1] at h
        exact (Except.error.inj h).symm
      · rw [if_neg h1] at h
        by_cases h2 : invalidIPv6 ref = true
        · rw [if_pos h2] at h
          exact (Except.error.inj h).symm
        · rw [if_neg h2] at h
          exact absurd h (by simp)

theorem mediaLineE_ok (base : String) (st : Option String × List String)
    (line : String) (st2 : Option String × List String)
    (h : mediaLineE base st line = Except.ok st2) : st2 = mediaLine base st line := by
  simp only [mediaLineE] at h
  simp only [mediaLine]
  by_cases h1 : pyStrip line = ""
  · rw [if_pos h1] at h
    rw [if_pos h1]
    exact (Except.ok.inj h).symm
  · rw [if_neg h1] at h
    rw [if_neg h1]
    by_cases h2 : strStartsWith (pyStrip line) "#EXT-X-MAP" = true
    · rw [if_pos h2] at h
      rw [if_pos h2]
      cases hd : dictGet "URI" (_parse_attributes (pyStrip line)) with
      | none =>
        rw [hd] at h
        have h' : (Except.ok st : Except String (Option String × List String)) =
            Except.ok st2 := h
        exact (Except.ok.inj h').symm
      | some uri =>
        rw [hd] at h
        show st2 = if uri = "" then st else (some (urljoin base uri), st.2)
        have h' : (if uri = "" then
              (Except.ok st : Except String (Option String × List String))
            else
              match pyUrljoinE base uri with
              | Except.error e => Except.error e
              | Except.ok u => Except.ok (some u, st.2)) = Except.ok st2 := h
        by_cases h3 : uri = ""
        · rw [if_pos h3] at h'
          rw [if_pos h3]
          exact (Except.ok.inj h').symm
        · rw [if_neg h3] at h'
          rw [if_neg h3]
          cases hu : pyUrljoinE base uri with
          | error e =>
            rw [hu] at h'
            have h'' : (Except.error e : Except String (Option String × List String)) =
                Except.ok st2 := h'
            exact absurd h'' (by simp)
          | ok u =>
            rw [hu] at h'
            have h'' : (Except.ok (some u, st.2) :
                Except String (Option String × List String)) = Except.ok st2 := h'
            rw [← pyUrljoinE_ok base uri u h3 hu]
            exact (Except.ok.inj h'').symm
    · rw [if_neg h2] at h
      rw [if_neg h2]
      by_cases h4 : strStartsWith (pyStrip line) "#" = true
      · rw [if_pos h4] at h
        rw [if_pos h4]
        exact (Except.ok.inj h).symm
      · rw [if_neg h4] at h
        rw [if_neg h4]
        cases hu : pyUrljoinE base (pyStrip line) with
        | error e =>
          rw [hu] at h
          have h'' : (Except.error e : Except String (Option String × List String)) =
              Except.ok st2 := h
          exact absurd h'' (by simp)
        | ok u =>
          rw [hu] at h
          have h'' : (Except.ok (st.1, st.2 ++ [u]) :
              Except String (Option String × List String)) = Except.ok st2 := h
          rw [← pyUrljoinE_ok base (pyStrip line) u h1 hu]
          exact (Except.ok.inj h'').symm

theorem mediaLineE_error (base : String) (st : Option String × List String)
    (line e : String) (h : mediaLineE base st line = Except.error e) :
    e = "Invalid IPv6 URL" := by
  simp only [mediaLineE] at h
  by_cases h1 : pyStrip line = ""
  · rw [if_pos h1] at h
    exact absurd h (by simp)
  · rw [if_neg h1] at h
    by_cases h2 : strStartsWith (pyStrip line) "#EXT-X-MAP" = true
    · rw [if_pos h2] at h
      cases hd : dictGet "URI" (_parse_attributes (pyStrip line)) with
      | none =>
        rw [hd] at h
        have h' : (Except.ok st : Except String (Option String × List String)) =
            Except.error e := h
        exact absurd h' (by simp)
      | some uri =>
        rw [hd] at h
        have h' : (if uri = "" then
              (Except.ok st : Except String (Option String × List String))
            else
              match pyUrljoinE base uri with
              | Except.error e1 => Except.error e1
              | Except.ok u => Except.ok (some u, st.2)) = Except.error e := h
        by_cases h3 : uri = ""
        · rw [if_pos h3] at h'
          exact absurd h' (by simp)
        · rw [if_neg h3] at h'
          cases hu : pyUrljoinE base uri with
          | error e1 =>
            rw [hu] at h'
            have h'' : (Except.error e1 : Except String (Option String × List String)) =
                Except.error e := h'
            rw [← Except.error.inj h'']
            exact pyUrljoinE_error base uri e1 hu
          | ok u =>
            rw [hu] at h'
            have h'' : (Except.ok (some u, st.2) :
                Except String (Option String × List String)) = Except.error e := h'
            exact absurd h'' (by simp)
    · rw [if_neg h2] at h
      by_cases h4 : strStartsWith (pyStrip line) "#" = true
      · rw [if_pos h4] at h
        exact absurd h (by simp)
      · rw [if_neg h4] at h
        cases hu : pyUrljoinE base (pyStrip line) with
        | error e1 =>
          rw [hu] at h
          have h'' : (Except.error e1 : Except String (Option String × List String)) =
              Except.error e := h
          rw [← Except.error.inj h'']
          exact pyUrljoinE_error base (pyStrip line) e1 hu
        | ok u =>
          rw [hu] at h
          have h'' : (Except.ok (st.1, st.2 ++ [u]) :
              Except String (Option String × List String)) = Except.error e := h
          exact absurd h'' (by simp)

theorem mediaLinesE_ok (base : String) : ∀ (ls : List String)
    (st r : Option String × List String), mediaLinesE base ls st = Except.ok r →
    r = List.foldl (mediaLine base) st ls := by
  intro ls
  induction ls with
  | nil =>
    intro st r h
    have h' : (Except.ok st : Except String (Option String × List String)) =
        Except.ok r := h
    rw [List.foldl_nil]
    exact (Except.ok.inj h').symm
  | cons l ls ih =>
    intro st r h
    unfold mediaLinesE at h
    cases he : mediaLineE base st l with
    | error e1 =>
      rw [he] at h
      have h' : (Except.error e1 : Except String (Option String × List String)) =
          Except.ok r := h
      exact absurd h' (by simp)
    | ok st2 =>
      rw [he] at h
      have h' : mediaLinesE base ls st2 = Except.ok r := h
      rw [List.foldl_cons, ← mediaLineE_ok base st l st2 he]
      exact ih st2 r h'

theorem mediaLinesE_error (base : String) : ∀ (ls : List String)
    (st : Option String × List String) (e : String),
    mediaLinesE base ls st = Except.error e → e = "Invalid IPv6 URL" := by
  intro ls
  induction ls with
  | nil =>
    intro st e h
    have h' : (Except.ok st : Except String (Option String × List String)) =
        Except.error e := h
    exact absurd h' (by simp)
  | cons l ls ih =>
    intro st e h
    unfold mediaLinesE at h
    cases he : mediaLineE base st l with
    | error e1 =>
      rw [he] at h
      have h' : (Except.error e1 : Except String (Option String × List String)) =
          Except.error e := h
      rw [← Except.error.inj h']
      exact mediaLineE_error base st l e1 he
    | ok st2 =>
      rw [he] at h
      have h' : mediaLinesE base ls st2 = Except.error e := h
      exact ih st2 e h'

/-- C10 counterexample: _parse_media_playlist is not total.  The segment
line http://[ is processed (non-blank, not a comment), and resolving it
makes urllib.parse.urljoin raise ValueError (Invalid IPv6 URL), which
escapes the parser instead of a pair being returned. -/
theorem parseMediaPlaylist_raises_counterexample :
    _parse_media_playlist_checked "#EXTM3U\nhttp://[\n" "https://h.tv/a/p.m3u8" =
      Except.error "Invalid IPv6 URL" ∧
    pyStrip "http://[" = "http://[" ∧
    strStartsWith "http://[" "#" = false := by
  exact ⟨rfl, rfl, rfl⟩

/-- C10 amended: _parse_media_playlist returns a pair of an optional init
URL and a segment URL list, except that a ValueError raised by
urllib.parse.urljoin on a malformed bracketed netloc in the base URL or a
processed line escapes the parser: every run either returns the pair
computed by the line characterization (comment lines and blank lines
skipped, a marker line whose attributes lack a URI ignored without error,
zero segments returned rather than treated as an error) or stops with
exactly that ValueError. -/
theorem parseMediaPlaylist_total_except_urljoin :
    (∀ text base r, _parse_media_playlist_checked text base = Except.ok r →
      r = _parse_media_playlist text base) ∧
    (∀ text base e, _parse_media_playlist_checked text base = Except.error e →
      e = "Invalid IPv6 URL") ∧
    (∀ text base, _parse_media_playlist text base =
      (lastOr none ((pySplitlines text).filterMap (mediaUriSpec base)),
        (pySplitlines text).filterMap (mediaSegSpec base))) ∧
    _parse_media_playlist_checked "" "https://h.tv/a/p.m3u8" = Except.ok (none, []) ∧
    _parse_media_playlist_checked "#EXTM3U\n#EXT-X-MAP:NOURI=1\n" "https://h.tv/a/p.m3u8" =
      Except.ok (none, []) := by
  refine ⟨?_, ?_, ?_, rfl, rfl⟩
  · intro text base r h
    exact mediaLinesE_ok base (pySplitlines text) (none, []) r h
  · intro text base e h
    exact mediaLinesE_error base (pySplitlines text) (none, []) e h
  · intro text base
    exact parse_media_spec text base

theorem parseMediaPlaylist_total_except_urljoin_witness :
    (none, ["https://h.tv/a/seg1.ts"]) =
      _parse_media_playlist "#EXTM3U\nseg1.ts\n" "https://h.tv/a/p.m3u8" ∧
    ("Invalid IPv6 URL" : String) = "Invalid IPv6 URL" :=
  ⟨parseMediaPlaylist_total_except_urljoin.1 "#EXTM3U\nseg1.ts\n"
      "https://h.tv/a/p.m3u8" (none, ["https://h.tv/a/seg1.ts"]) rfl,
    parseMediaPlaylist_total_except_urljoin.2.1 "#EXTM3U\nhttp://[\n"
      "https://h.tv/a/p.m3u8" "Invalid IPv6 URL" rfl⟩

/-- C6 counterexample: with two init-segment marker lines carrying URI
attributes, _parse_media_playlist records the second URI, not the first
one as the claim states. -/
theorem parseMediaPlaylist_init_counterexample :
    (_parse_media_playlist "#EXTM3U\n#EXT-X-MAP:URI=\"a.mp4\"\n#EXT-X-MAP:URI=\"b.mp4\"\nseg1.ts\n" "https://h.tv/a/p.m3u8").1 = some "https://h.tv/a/b.mp4" ∧
    (_parse_media_playlist "#EXTM3U\n#EXT-X-MAP:URI=\"a.mp4\"\n#EXT-X-MAP:URI=\"b.mp4\"\nseg1.ts\n" "https://h.tv/a/p.m3u8").1 ≠ some (urljoin "https://h.tv/a/p.m3u8" "a.mp4") := by
  refine ⟨by decide, by decide⟩

theorem mediaUriSpec_eq_map (base hLine : String) :
    mediaUriSpec base hLine = (mediaUriRawSpec hLine).map (urljoin base) := by
  unfold mediaUriSpec mediaUriRawSpec
  by_cases h1 : pyStrip hLine = ""
  · simp [h1]
  · by_cases h2 : strStartsWith (pyStrip hLine) "#EXT-X-MAP" = true
    · cases hd : dictGet "URI" (_parse_attributes (pyStrip hLine)) with
      | none => simp [h1, h2, hd]
      | some uri =>
        by_cases h3 : uri = ""
        · simp [h1, h2, hd, h3]
        · simp [h1, h2, hd, h3]
    · simp [h1, h2]

/-- C6 amended: for a media playlist containing initialization-segment
marker lines carrying truthy URI attributes, _parse_media_playlist records
as the init segment URL the LAST such URI found, resolved against the base
URL: each occurrence overwrites the previous one. -/
theorem parseMediaPlaylist_init_last (text base u : String)
    (h : ((pySplitlines text).filterMap mediaUriRawSpec).getLast? = some u) :
    (_parse_media_playlist text base).1 = some (urljoin base u) := by
  rw [parse_media_spec]
  have he : (pySplitlines text).filterMap (mediaUriSpec base) =
      ((pySplitlines text).filterMap mediaUriRawSpec).map (urljoin base) := by
    rw [List.map_filterMap]
    apply List.filterMap_congr
    intro l _
    exact mediaUriSpec_eq_map base l
  show lastOr none ((pySplitlines text).filterMap (mediaUriSpec base)) = some (urljoin base u)
  rw [he]
  unfold lastOr
  rw [List.getLast?_map, h]
  rfl

/-- C6 witness: a concrete playlist whose single marker line carries the
URI init.mp4 yields that URI resolved against the base as init segment. -/
theorem parseMediaPlaylist_init_last_witness :
    (_parse_media_playlist "#EXTM3U\n#EXT-X-MAP:URI=\"init.mp4\"\nseg1.m4s\n" "https://h.tv/a/p.m3u8").1 =
      some (urljoin "https://h.tv/a/p.m3u8" "init.mp4") :=
  parseMediaPlaylist_init_last "#EXTM3U\n#EXT-X-MAP:URI=\"init.mp4\"\nseg1.m4s\n" "https://h.tv/a/p.m3u8" "init.mp4" (by decide)

/-! Pipeline loop lemmas. -/

theorem downloadOne_ok (env : NetEnv) (total : Nat) (ii : Bool) (st : PartLoop)
    (h : env.downloadOk (st.partIndex + 1) = true) :
    downloadOne env total ii st =
      ({ partIndex := st.partIndex + 1
         fs := { st.fs with
                  segmentDownloads := st.fs.segmentDownloads + 1
                  scratchFiles := st.fs.scratchFiles ++
                    [if ii then pad5 (st.partIndex + 1) ++ "_init.mp4"
                     else pad5 (st.partIndex + 1) ++ ".ts"] }
         events := st.events ++ [⟨st.partIndex + 1, total, "segments"⟩] }, none) := by
  unfold downloadOne
  rw [if_pos h]

theorem downloadOne_fail (env : NetEnv) (total : Nat) (ii : Bool) (st : PartLoop)
    (h : env.downloadOk (st.partIndex + 1) = false) :
    downloadOne env total ii st =
      ({ st with fs := { st.fs with segmentDownloads := st.fs.segmentDownloads + 1 } },
        some .httpError) := by
  unfold downloadOne
  rw [if_neg (by simp [h])]

theorem downloadOne_pres (env : NetEnv) (total : Nat) (ii : Bool) (st : PartLoop) :
    (downloadOne env total ii st).1.fs.scratchEverCreated = st.fs.scratchEverCreated ∧
    (downloadOne env total ii st).1.fs.scratchExists = st.fs.scratchExists ∧
    (downloadOne env total ii st).1.fs.mergeTargetExists = st.fs.mergeTargetExists ∧
    (downloadOne env total ii st).1.fs.remuxInvoked = st.fs.remuxInvoked := by
  unfold downloadOne
  by_cases h : env.downloadOk (st.partIndex + 1) = true
  · simp [h]
  · simp [h]

theorem segEvts_cons (a k total : Nat) :
    segEvts a (k + 1) total = ⟨a, total, "segments"⟩ :: segEvts (a + 1) k total := by
  unfold segEvts
  rw [List.range'_succ, List.map_cons]

theorem downloadParts_spec (env : NetEnv) (total : Nat) :
    ∀ (urls : List String) (st : PartLoop),
    ∃ k, k ≤ urls.length ∧
      (downloadParts env total urls st).1.events = st.events ++ segEvts (st.partIndex + 1) k total ∧
      (downloadParts env total urls st).1.partIndex = st.partIndex + k ∧
      (downloadParts env total urls st).1.fs.scratchFiles.length =
        st.fs.scratchFiles.length + k ∧
      (downloadParts env total urls st).1.fs.scratchEverCreated = st.fs.scratchEverCreated ∧
      (downloadParts env total urls st).1.fs.scratchExists = st.fs.scratchExists ∧
      (downloadParts env total urls st).1.fs.mergeTargetExists = st.fs.mergeTargetExists ∧
      (downloadParts env total urls st).1.fs.remuxInvoked = st.fs.remuxInvoked ∧
      ((downloadParts env total urls st).2 = none ∨
        (downloadParts env total urls st).2 = some .httpError) ∧
      ((downloadParts env total urls st).2 = none → k = urls.length) ∧
      ((∀ i, env.downloadOk i = true) → (downloadParts env total urls st).2 = none) := by
  intro urls
  induction urls with
  | nil =>
    intro st
    refine ⟨0, by simp, ?_, ?_, ?_, ?_, ?_, ?_, ?_, ?_, ?_, ?_⟩ <;>
      simp [downloadParts, segEvts]
  | cons u rest ih =>
    intro st
    by_cases h : env.downloadOk (st.partIndex + 1) = true
    · have hstep : downloadParts env total (u :: rest) st =
          downloadParts env total rest
            { partIndex := st.partIndex + 1
              fs := { st.fs with
                       segmentDownloads := st.fs.segmentDownloads + 1
                       scratchFiles := st.fs.scratchFiles ++
                         [pad5 (st.partIndex + 1) ++ ".ts"] }
              events := st.events ++ [⟨st.partIndex + 1, total, "segments"⟩] } := by
        rw [downloadParts, downloadOne_ok env total false st h]
        rfl
      obtain ⟨k, hk, he, hp, hf, h1, h2, h3, h4, herr, hnone, hall⟩ := ih
        { partIndex := st.partIndex + 1
          fs := { st.fs with
                   segmentDownloads := st.fs.segmentDownloads + 1
                   scratchFiles := st.fs.scratchFiles ++
                     [pad5 (st.partIndex + 1) ++ ".ts"] }
          events := st.events ++ [⟨st.partIndex + 1, total, "segments"⟩] }
      refine ⟨k + 1, by simp; omega, ?_, ?_, ?_, ?_, ?_, ?_, ?_, ?_, ?_, ?_⟩
      · rw [hstep, he]
        simp only [segEvts_cons]
        simp [List.append_assoc]
      · rw [hstep, hp]; simp; omega
      · rw [hstep, hf]; simp; omega
      · rw [hstep, h1]
      · rw [hstep, h2]
      · rw [hstep, h3]
      · rw [hstep, h4]
      · rw [hstep]; exact herr
      · rw [hstep]; intro hn; rw [hnone hn]; simp
      · rw [hstep]; exact hall
    · have hb : env.downloadOk (st.partIndex + 1) = false := by
        rw [Bool.not_eq_true] at h; exact h
      have hstep : downloadParts env total (u :: rest) st =
          ({ st with fs := { st.fs with segmentDownloads := st.fs.segmentDownloads + 1 } },
            some .httpError) := by
        rw [downloadParts, downloadOne_fail env total false st hb]
      refine ⟨0, by simp, ?_, ?_, ?_, ?_, ?_, ?_, ?_, ?_, ?_, ?_⟩ <;> rw [hstep] <;>
        first
        | rfl
        | (simp [segEvts]; done)
        | (intro hn; simp at hn; done)
        | (intro hA; exact absurd (hA (st.partIndex + 1)) (by simp [hb]))

theorem mergeParts_spec (env : NetEnv) (total : Nat) :
    ∀ (files : List String) (i : Nat) (evs : List ProgressEvent),
    ∃ k, k ≤ files.length ∧
      (mergeParts env total files i evs).1 =
        evs ++ (List.range' (i + 1) k).map (fun j => (⟨j, total, "merge"⟩ : ProgressEvent)) ∧
      ((mergeParts env total files i evs).2 = none ∨
        (mergeParts env total files i evs).2 = some .osError) ∧
      ((mergeParts env total files i evs).2 = none → k = files.length) ∧
      ((∀ j, env.mergeWriteOk j = true) → (mergeParts env total files i evs).2 = none) := by
  intro files
  induction files with
  | nil =>
    intro i evs
    refine ⟨0, by simp, ?_, ?_, ?_, ?_⟩ <;> simp [mergeParts]
  | cons f rest ih =>
    intro i evs
    by_cases h : env.mergeWriteOk (i + 1) = true
    · have hstep : mergeParts env total (f :: rest) i evs =
          mergeParts env total rest (i + 1) (evs ++ [⟨i + 1, total, "merge"⟩]) := by
        rw [mergeParts, if_pos h]
      obtain ⟨k, hk, he, herr, hnone, hall⟩ := ih (i + 1) (evs ++ [⟨i + 1, total, "merge"⟩])
      refine ⟨k + 1, by simp; omega, ?_, ?_, ?_, ?_⟩
      · rw [hstep, he, List.range'_succ, List.map_cons]
        simp [List.append_assoc]
      · rw [hstep]; exact herr
      · rw [hstep]; intro hn; rw [hnone hn]; simp
      · rw [hstep]; exact hall
    · have hb : env.mergeWriteOk (i + 1) = false := by
        rw [Bool.not_eq_true] at h; exact h
      have hstep : mergeParts env total (f :: rest) i evs = (evs, some .osError) := by
        rw [mergeParts, if_neg (by simp [hb])]
      refine ⟨0, by simp, ?_, ?_, ?_, ?_⟩ <;> rw [hstep] <;>
        first
        | rfl
        | (simp; done)
        | (intro hn; simp at hn; done)
        | (intro hA; exact absurd (hA (i + 1)) (by simp [hb]))

theorem remux_cases (env : NetEnv) (ts fp : String) (fs : FsState) (evs : List ProgressEvent) :
    (env.ffmpegAvailable = false →
      _remux_ts_to_mp4 env ts fp fs evs = (ts, fs, evs)) ∧
    (env.ffmpegAvailable = true → env.remuxReturncode ≠ 0 →
      _remux_ts_to_mp4 env ts fp fs evs =
        (ts, { fs with remuxInvoked := true }, evs ++ [⟨0, 1, "remux"⟩])) ∧
    (env.ffmpegAvailable = true → env.remuxReturncode = 0 →
      _remux_ts_to_mp4 env ts fp fs evs =
        (fp, { fs with remuxInvoked := true, mergeTargetExists := false },
          evs ++ [⟨0, 1, "remux"⟩, ⟨1, 1, "remux"⟩])) := by
  refine ⟨?_, ?_, ?_⟩
  · intro h
    unfold _remux_ts_to_mp4
    rw [if_pos h]
  · intro h1 h2
    unfold _remux_ts_to_mp4
    rw [if_neg (by simp [h1]), if_pos h2]
  · intro h1 h2
    unfold _remux_ts_to_mp4
    rw [if_neg (by simp [h1]), if_neg (by simp [h2])]
    simp

theorem segEvts_append (a j k total : Nat) :
    segEvts a j total ++ segEvts (a + j) k total = segEvts a (j + k) total := by
  have hr : List.range' a j ++ List.range' (a + j) k = List.range' a (j + k) := by
    rw [List.range'_append_1, Nat.add_comm]
  unfold segEvts
  rw [← List.map_append, hr]

theorem remux_pres (env : NetEnv) (ts fp : String) (fs : FsState) (evs : List ProgressEvent) :
    (_remux_ts_to_mp4 env ts fp fs evs).2.1.scratchEverCreated = fs.scratchEverCreated ∧
    (_remux_ts_to_mp4 env ts fp fs evs).2.1.scratchExists = fs.scratchExists ∧
    (_remux_ts_to_mp4 env ts fp fs evs).2.1.scratchFiles = fs.scratchFiles ∧
    (_remux_ts_to_mp4 env ts fp fs evs).2.1.segmentDownloads = fs.segmentDownloads := by
  unfold _remux_ts_to_mp4
  split
  · simp
  · split <;> simp

theorem tryBody_main (env : NetEnv) (init_url : Option String) (segs : List String)
    (total : Nat) (nr : Bool) (mt fp : String) (fs0 : FsState)
    (h0 : fs0.scratchFiles = []) :
    (tryBody env init_url segs total nr mt fp fs0).2.1.scratchEverCreated =
      fs0.scratchEverCreated ∧
    (∀ m, (tryBody env init_url segs total nr mt fp fs0).1 ≠
      Except.error (PyErr.playlistError m)) ∧
    ∃ mP mm rEvs,
      (tryBody env init_url segs total nr mt fp fs0).2.2 =
        segEvts 1 mP total ++ mergeEvts mm mP ++ rEvs ∧
      (rEvs = [] ∨ rEvs = [⟨0, 1, "remux"⟩] ∨ rEvs = [⟨0, 1, "remux"⟩, ⟨1, 1, "remux"⟩]) ∧
      (env.remuxReturncode = 0 → rEvs = [] ∨ rEvs = [⟨0, 1, "remux"⟩, ⟨1, 1, "remux"⟩]) ∧
      (∀ p, (tryBody env init_url segs total nr mt fp fs0).1 = Except.ok p →
        mP = segs.length + (if pyTruthyOpt init_url = true then 1 else 0) ∧ mm = mP) := by
  simp only [tryBody]
  set R1 : PartLoop × Option PyErr :=
    (if pyTruthyOpt init_url = true then downloadOne env total true ⟨0, fs0, []⟩
      else ((⟨0, fs0, []⟩ : PartLoop), none)) with hR1
  have R1facts : ∃ j,
      R1.1.events = segEvts 1 j total ∧
      R1.1.partIndex = j ∧
      R1.1.fs.scratchFiles.length = j ∧
      R1.1.fs.scratchEverCreated = fs0.scratchEverCreated ∧
      (R1.2 = none ∨ R1.2 = some PyErr.httpError) ∧
      (R1.2 = none → j = (if pyTruthyOpt init_url = true then 1 else 0)) := by
    rw [hR1]
    by_cases hty : pyTruthyOpt init_url = true
    · by_cases hd : env.downloadOk 1 = true
      · rw [if_pos hty, downloadOne_ok env total true ⟨0, fs0, []⟩ hd]
        refine ⟨1, ?_, rfl, ?_, rfl, Or.inl rfl, fun _ => by rw [if_pos hty]⟩
        · simp [segEvts, List.range']
        · simp [h0]
      · have hdb : env.downloadOk 1 = false := by rw [Bool.not_eq_true] at hd; exact hd
        rw [if_pos hty, downloadOne_fail env total true ⟨0, fs0, []⟩ hdb]
        refine ⟨0, ?_, rfl, ?_, rfl, Or.inr rfl, fun hx => by simp at hx⟩
        · simp [segEvts]
        · simp [h0]
    · rw [if_neg hty]
      refine ⟨0, ?_, rfl, ?_, rfl, Or.inl rfl, fun _ => by rw [if_neg hty]⟩
      · simp [segEvts]
      · simp [h0]
  obtain ⟨j, hjev, hjpi, hjlen, hjever, hjerr, hjfull⟩ := R1facts
  rcases ho1 : R1.2 with _ | e1
  case some =>
    -- init segment download failed
    have he1 : e1 = PyErr.httpError := by
      rcases hjerr with hn | hs
      · rw [ho1] at hn; exact absurd hn (by simp)
      · rw [ho1] at hs; exact Option.some.inj hs
    simp only [ho1]
    refine ⟨hjever, ?_, j, 0, [], ?_, Or.inl rfl, fun _ => Or.inl rfl, ?_⟩
    · intro m hcontra
      rw [he1] at hcontra
      simp at hcontra
    · rw [hjev]; simp [mergeEvts]
    · intro p hp; simp at hp
  case none =>
    simp only [ho1]
    obtain ⟨k, hk_le, hkev, hkpi, hklen, hkever, _, _, _, hkerr, hknone, _⟩ :=
      downloadParts_spec env total segs R1.1
    have hsa : segEvts 1 j total ++ segEvts (j + 1) k total = segEvts 1 (j + k) total := by
      have hx := segEvts_append 1 j k total
      rwa [Nat.add_comm 1 j] at hx
    rcases ho2 : (downloadParts env total segs R1.1).2 with _ | e2
    case some =>
      have he2 : e2 = PyErr.httpError := by
        rcases hkerr with hn | hs
        · rw [ho2] at hn; exact absurd hn (by simp)
        · rw [ho2] at hs; exact Option.some.inj hs
      simp only [ho2]
      refine ⟨?_, ?_, j + k, 0, [], ?_, Or.inl rfl, fun _ => Or.inl rfl, ?_⟩
      · rw [hkever, hjever]
      · intro m hcontra
        rw [he2] at hcontra
        simp at hcontra
      · rw [hkev, hjev, hjpi, hsa]
        simp [mergeEvts]
      · intro p hp; simp at hp
    case none =>
      simp only [ho2]
      have hfiles : (downloadParts env total segs R1.1).1.fs.scratchFiles.length = j + k := by
        rw [hklen, hjlen]
      obtain ⟨k2, hk2_le, hmev, hmerr, hmnone, _⟩ :=
        mergeParts_spec env (downloadParts env total segs R1.1).1.fs.scratchFiles.length
          (downloadParts env total segs R1.1).1.fs.scratchFiles 0 []
      rcases ho3 : (mergeParts env (downloadParts env total segs R1.1).1.fs.scratchFiles.length
          (downloadParts env total segs R1.1).1.fs.scratchFiles 0 []).2 with _ | e3
      case some =>
        have he3 : e3 = PyErr.osError := by
          rcases hmerr with hn | hs
          · rw [ho3] at hn; exact absurd hn (by simp)
          · rw [ho3] at hs; exact Option.some.inj hs
        simp only [ho3]
        refine ⟨?_, ?_, j + k, k2, [], ?_, Or.inl rfl, fun _ => Or.inl rfl, ?_⟩
        · show (downloadParts env total segs R1.1).1.fs.scratchEverCreated = fs0.scratchEverCreated
          rw [hkever, hjever]
        · intro m hcontra
          rw [he3] at hcontra
          simp at hcontra
        · rw [hmev, hkev, hjev, hjpi, hfiles, hsa]
          simp [mergeEvts]
        · intro p hp; simp at hp
      case none =>
        simp only [ho3]
        have hk2 : k2 = j + k := by rw [hmnone ho3, hfiles]
        have hmergee : (mergeParts env (downloadParts env total segs R1.1).1.fs.scratchFiles.length
            (downloadParts env total segs R1.1).1.fs.scratchFiles 0 []).1 =
            mergeEvts k2 (j + k) := by
          rw [hmev, hfiles]
          simp [mergeEvts]
        have hpre : (downloadParts env total segs R1.1).1.events ++
            (mergeParts env (downloadParts env total segs R1.1).1.fs.scratchFiles.length
              (downloadParts env total segs R1.1).1.fs.scratchFiles 0 []).1 =
            segEvts 1 (j + k) total ++ mergeEvts (j + k) (j + k) := by
          rw [hmergee, hkev, hjev, hjpi, hk2, hsa]
        have hsucc : j + k = segs.length + (if pyTruthyOpt init_url = true then 1 else 0) ∧
            (j + k : Nat) = j + k := by
          constructor
          · rw [hjfull ho1, hknone ho2]
            omega
          · rfl
        by_cases hnr : nr = true
        · rw [if_pos hnr]
          by_cases hff : env.ffmpegAvailable = true
          · by_cases hrc : env.remuxReturncode = 0
            · rw [((remux_cases env mt fp _ _).2.2) hff hrc]
              refine ⟨?_, by simp, j + k, j + k, [⟨0, 1, "remux"⟩, ⟨1, 1, "remux"⟩], ?_,
                Or.inr (Or.inr rfl), fun _ => Or.inr rfl, ?_⟩
              · show FsState.scratchEverCreated _ = fs0.scratchEverCreated
                simp only []
                rw [hkever, hjever]
              · simp only []
                rw [hpre]
              · intro p _
                exact ⟨hsucc.1, rfl⟩
            · rw [((remux_cases env mt fp _ _).2.1) hff hrc]
              refine ⟨?_, by simp, j + k, j + k, [⟨0, 1, "remux"⟩], ?_,
                Or.inr (Or.inl rfl), fun hc => absurd hc hrc, ?_⟩
              · simp only []
                rw [hkever, hjever]
              · simp only []
                rw [hpre]
              · intro p _
                exact ⟨hsucc.1, rfl⟩
          · have hffb : env.ffmpegAvailable = false := by
              rw [Bool.not_eq_true] at hff; exact hff
            rw [((remux_cases env mt fp _ _).1) hffb]
            refine ⟨?_, by simp, j + k, j + k, [], ?_, Or.inl rfl, fun _ => Or.inl rfl, ?_⟩
            · show FsState.scratchEverCreated _ = fs0.scratchEverCreated
              rw [hkever, hjever]
            · simp only []
              rw [hpre]
              simp
            · intro p _
              exact ⟨hsucc.1, rfl⟩
        · rw [if_neg hnr]
          refine ⟨?_, by simp, j + k, j + k, [], ?_, Or.inl rfl, fun _ => Or.inl rfl, ?_⟩
          · show FsState.scratchEverCreated _ = fs0.scratchEverCreated
            rw [hkever, hjever]
          · simp only []
            rw [hpre]
            simp
          · intro p _
            exact ⟨hsucc.1, rfl⟩

/-! C1: scratch directory cleanup on every exit path. -/

/-- C1: after any download_variant call, under any outcome of the external
calls, the scratch directory is gone and holds no files; and on every call
that reaches the point where the scratch directory is created (the
playlist was fetched and had at least one part), the scratch directory was
indeed created during the run. -/
theorem downloadVariant_scratch_cleanup (env : NetEnv) (b : Broadcast) (v : StreamVariant)
    (output_directory : String) (filename : Option String) :
    (download_variant env b v output_directory filename).fs.scratchExists = false ∧
    (download_variant env b v output_directory filename).fs.scratchFiles = [] ∧
    (∀ t, env.playlistText = Except.ok t →
      ¬((_parse_media_playlist t v.playlist_url).2.length = 0 ∧
        pyTruthyOpt (_parse_media_playlist t v.playlist_url).1 = false) →
      (download_variant env b v output_directory filename).fs.scratchEverCreated = true) := by
  cases hpt : env.playlistText with
  | error u =>
    simp only [download_variant, hpt]
    refine ⟨rfl, rfl, ?_⟩
    intro t ht
    exact absurd ht (by simp)
  | ok t0 =>
    simp only [download_variant, hpt]
    by_cases hc : ((_parse_media_playlist t0 v.playlist_url).2.length = 0 ∧
        pyTruthyOpt (_parse_media_playlist t0 v.playlist_url).1 = false)
    · rw [if_pos hc]
      refine ⟨rfl, rfl, ?_⟩
      intro t ht hnc
      have hte : t0 = t := Except.ok.inj ht
      rw [← hte] at hnc
      exact absurd hc hnc
    · rw [if_neg hc]
      refine ⟨rfl, rfl, ?_⟩
      intro t ht hnc
      show (tryBody env _ _ _ _ _ _
        { initFs with scratchExists := true, scratchEverCreated := true }).2.1.scratchEverCreated = true
      exact (tryBody_main env _ _ _ _ _ _ _ rfl).1

/-- C1 witness: a concrete successful run ends with no scratch directory,
having created one along the way. -/
theorem downloadVariant_scratch_cleanup_witness :
    (download_variant sampleEnv sampleBroadcast sampleVariant "out" (some "video.mp4")).fs.scratchExists = false ∧
    (download_variant sampleEnv sampleBroadcast sampleVariant "out" (some "video.mp4")).fs.scratchFiles = [] ∧
    (download_variant sampleEnv sampleBroadcast sampleVariant "out" (some "video.mp4")).fs.scratchEverCreated = true :=
  ⟨(downloadVariant_scratch_cleanup sampleEnv sampleBroadcast sampleVariant "out" (some "video.mp4")).1,
    (downloadVariant_scratch_cleanup sampleEnv sampleBroadcast sampleVariant "out" (some "video.mp4")).2.1,
    (downloadVariant_scratch_cleanup sampleEnv sampleBroadcast sampleVariant "out"
      (some "video.mp4")).2.2 "#EXTM3U\nseg1.ts\nseg2.ts\n" rfl (by decide)⟩

/-! C3: partless media playlist rejection. -/

theorem urljoin_ne_empty (base ref : String) (h : ref ≠ "") : urljoin base ref ≠ "" := by
  have href : ref.data ≠ [] := fun hh => h (String.ext hh)
  unfold urljoin
  split
  · exact h
  · split
    · intro hc
      have hd : hostRoot base.data ++ ref.data = [] := congrArg String.data hc
      exact href (List.append_eq_nil.mp hd).2
    · intro hc
      have hd : upToLastSlash base.data ++ ref.data = [] := congrArg String.data hc
      exact href (List.append_eq_nil.mp hd).2

theorem mediaUriSpec_ne_empty (base hLine u : String) (h : mediaUriSpec base hLine = some u) :
    u ≠ "" := by
  unfold mediaUriSpec at h
  by_cases h1 : pyStrip hLine = ""
  · rw [if_pos h1] at h; exact absurd h (by simp)
  · rw [if_neg h1] at h
    by_cases h2 : strStartsWith (pyStrip hLine) "#EXT-X-MAP" = true
    · rw [if_pos h2] at h
      cases hd : dictGet "URI" (_parse_attributes (pyStrip hLine)) with
      | none =>
        rw [hd] at h
        have h' : (none : Option String) = some u := h
        exact absurd h' (by simp)
      | some uri =>
        rw [hd] at h
        have h' : (if uri = "" then none else some (urljoin base uri)) = some u := h
        by_cases h3 : uri = ""
        · rw [if_pos h3] at h'; exact absurd h' (by simp)
        · rw [if_neg h3] at h'
          have hju : urljoin base uri = u := Option.some.inj h'
          rw [← hju]
          exact urljoin_ne_empty base uri h3
    · rw [if_neg h2] at h; exact absurd h (by simp)

theorem parse_media_init_truthy (t b u : String)
    (h : (_parse_media_playlist t b).1 = some u) : pyTruthyOpt (some u) = true := by
  rw [parse_media_spec] at h
  have h' : lastOr none ((pySplitlines t).filterMap (mediaUriSpec b)) = some u := h
  unfold lastOr at h'
  cases hg : ((pySplitlines t).filterMap (mediaUriSpec b)).getLast? with
  | none =>
    rw [hg] at h'
    have h'' : (none : Option String) = some u := h'
    exact absurd h'' (by simp)
  | some w =>
    rw [hg] at h'
    have h'' : some w = some u := h'
    have hw : w = u := Option.some.inj h''
    have hmem : w ∈ (pySplitlines t).filterMap (mediaUriSpec b) :=
      List.mem_of_getLast?_eq_some hg
    obtain ⟨l, _, hl⟩ := List.mem_filterMap.mp hmem
    have := mediaUriSpec_ne_empty b l w hl
    rw [hw] at this
    simp [pyTruthyOpt, this]

/-- C3: when the fetched media playlist parses to zero segment URLs and no
init segment URL, download_variant raises PlaylistError before any segment
download begins and before the scratch directory is created; when at least
one part exists (segments, or an init segment alone), no PlaylistError is
raised by the call. -/
theorem downloadVariant_partless_playlistError (env : NetEnv) (b : Broadcast)
    (v : StreamVariant) (output_directory : String) (filename : Option String)
    (t : String) (h1 : env.playlistText = Except.ok t) :
    ((_parse_media_playlist t v.playlist_url).2 = [] ∧
        (_parse_media_playlist t v.playlist_url).1 = none →
      (download_variant env b v output_directory filename).result =
          Except.error (.playlistError "Media playlist did not contain any segments.") ∧
        (download_variant env b v output_directory filename).fs.segmentDownloads = 0 ∧
        (download_variant env b v output_directory filename).fs.scratchEverCreated = false) ∧
    ((_parse_media_playlist t v.playlist_url).1 ≠ none ∨
        (_parse_media_playlist t v.playlist_url).2 ≠ [] →
      ∀ m, (download_variant env b v output_directory filename).result ≠
        Except.error (.playlistError m)) := by
  constructor
  · intro ⟨hsegs, hinit⟩
    simp only [download_variant, h1]
    rw [if_pos ⟨by rw [hsegs]; rfl, by rw [hinit]; rfl⟩]
    exact ⟨rfl, rfl, rfl⟩
  · intro hparts m
    have hcond : ¬((_parse_media_playlist t v.playlist_url).2.length = 0 ∧
        pyTruthyOpt (_parse_media_playlist t v.playlist_url).1 = false) := by
      rcases hparts with hi | hs
      · intro ⟨_, hty⟩
        cases hinit : (_parse_media_playlist t v.playlist_url).1 with
        | none => exact hi hinit
        | some u =>
          have := parse_media_init_truthy t v.playlist_url u hinit
          rw [hinit] at hty
          rw [this] at hty
          exact absurd hty (by simp)
      · intro ⟨hlen, _⟩
        exact hs (List.length_eq_zero.mp hlen)
    simp only [download_variant, h1]
    rw [if_neg hcond]
    show (tryBody env _ _ _ _ _ _
      { initFs with scratchExists := true, scratchEverCreated := true }).1 ≠
        Except.error (PyErr.playlistError m)
    exact (tryBody_main env _ _ _ _ _ _ _ rfl).2.1 m

/-- C3 witness: a partless playlist is rejected with PlaylistError and no
segment download; a playlist with segments is not rejected. -/
theorem downloadVariant_partless_playlistError_witness :
    (download_variant { sampleEnv with playlistText := Except.ok "#EXTM3U\n" }
        sampleBroadcast sampleVariant "out" (some "video.mp4")).result =
      Except.error (.playlistError "Media playlist did not contain any segments.") ∧
    (download_variant { sampleEnv with playlistText := Except.ok "#EXTM3U\n" }
        sampleBroadcast sampleVariant "out" (some "video.mp4")).fs.segmentDownloads = 0 ∧
    (download_variant sampleEnv sampleBroadcast sampleVariant "out" (some "video.mp4")).result ≠
      Except.error (.playlistError "Media playlist did not contain any segments.") :=
  ⟨((downloadVariant_partless_playlistError { sampleEnv with playlistText := Except.ok "#EXTM3U\n" }
      sampleBroadcast sampleVariant "out" (some "video.mp4") "#EXTM3U\n" rfl).1
      ⟨by decide, by decide⟩).1,
    ((downloadVariant_partless_playlistError { sampleEnv with playlistText := Except.ok "#EXTM3U\n" }
      sampleBroadcast sampleVariant "out" (some "video.mp4") "#EXTM3U\n" rfl).1
      ⟨by decide, by decide⟩).2.1,
    (downloadVariant_partless_playlistError sampleEnv sampleBroadcast sampleVariant "out"
      (some "video.mp4") "#EXTM3U\nseg1.ts\nseg2.ts\n" rfl).2 (Or.inr (by decide)) _⟩

/-! C8: progress reporting order and monotonicity. -/

theorem chain'_stageRange (T : Nat) (S : String) :
    ∀ (k a : Nat), List.Chain' ProgOk
      ((List.range' a k).map (fun i => (⟨i, T, S⟩ : ProgressEvent))) := by
  intro k
  induction k with
  | zero => intro a; simp
  | succ n ih =>
    intro a
    rw [List.range'_succ, List.map_cons, List.chain'_cons']
    refine ⟨?_, ih (a + 1)⟩
    intro y hy
    cases n with
    | zero => simp [List.range'] at hy
    | succ m =>
      rw [List.range'_succ, List.map_cons] at hy
      simp only [List.head?_cons, Option.mem_def, Option.some.injEq] at hy
      rw [← hy]
      exact Or.inr ⟨rfl, Nat.le_succ a, rfl⟩

theorem stageRange_mem (a k T : Nat) (S : String) :
    ∀ e ∈ (List.range' a k).map (fun i => (⟨i, T, S⟩ : ProgressEvent)), e.stage = S := by
  intro e he
  obtain ⟨i, _, hi⟩ := List.mem_map.mp he
  rw [← hi]

theorem stageRange_getLast (a k T : Nat) (S : String) (hk : k ≠ 0) :
    ((List.range' a k).map (fun i => (⟨i, T, S⟩ : ProgressEvent))).getLast? =
      some ⟨a + k - 1, T, S⟩ := by
  obtain ⟨m, rfl⟩ : ∃ m, k = m + 1 := ⟨k - 1, by omega⟩
  rw [List.range'_1_concat, List.map_append]
  simp only [List.map_cons, List.map_nil, List.getLast?_concat]
  have hm : a + (m + 1) - 1 = a + m := by omega
  rw [hm]

theorem chain'_append_all {l1 l2 : List ProgressEvent}
    (h1 : List.Chain' ProgOk l1) (h2 : List.Chain' ProgOk l2)
    (h : ∀ x ∈ l1, ∀ y ∈ l2, ProgOk x y) : List.Chain' ProgOk (l1 ++ l2) := by
  rw [List.chain'_append]
  refine ⟨h1, h2, ?_⟩
  intro x hx y hy
  refine h x (List.mem_of_getLast?_eq_some hx) y ?_
  obtain ⟨ys, hys⟩ := List.head?_eq_some_iff.mp hy
  rw [hys]
  exact List.mem_cons_self y ys

theorem stageEvents_of_all (evs : List ProgressEvent) (s : String)
    (h : ∀ e ∈ evs, e.stage = s) : stageEvents evs s = evs := by
  unfold stageEvents
  rw [List.filter_eq_self]
  intro a ha
  simp [h a ha]

theorem stageEvents_of_none (evs : List ProgressEvent) (s : String)
    (h : ∀ e ∈ evs, e.stage ≠ s) : stageEvents evs s = [] := by
  unfold stageEvents
  rw [List.filter_eq_nil_iff]
  intro a ha
  simp [h a ha]

theorem stageEvents_append (l1 l2 : List ProgressEvent) (s : String) :
    stageEvents (l1 ++ l2) s = stageEvents l1 s ++ stageEvents l2 s := by
  unfold stageEvents
  rw [List.filter_append]

theorem tryBody_progress (env : NetEnv) (init_url : Option String) (segs : List String)
    (total : Nat) (nr : Bool) (mt fp : String) (fs0 : FsState)
    (h0 : fs0.scratchFiles = [])
    (htot : total = segs.length + (if pyTruthyOpt init_url = true then 1 else 0))
    (hpos : 1 ≤ total) :
    List.Chain' ProgOk (tryBody env init_url segs total nr mt fp fs0).2.2 ∧
    (∀ e ∈ (tryBody env init_url segs total nr mt fp fs0).2.2,
      e.stage = "segments" ∨ e.stage = "merge" ∨ e.stage = "remux") ∧
    (∀ p, (tryBody env init_url segs total nr mt fp fs0).1 = Except.ok p →
      stageCompleted (tryBody env init_url segs total nr mt fp fs0).2.2 "segments" ∧
      stageCompleted (tryBody env init_url segs total nr mt fp fs0).2.2 "merge") ∧
    (env.remuxReturncode = 0 →
      stageCompleted (tryBody env init_url segs total nr mt fp fs0).2.2 "remux") := by
  obtain ⟨_, _, mP, mm, rEvs, hev, hrE, hrc0, hsucc⟩ :=
    tryBody_main env init_url segs total nr mt fp fs0 h0
  have hsegmem : ∀ e ∈ segEvts 1 mP total, e.stage = "segments" := by
    unfold segEvts; exact stageRange_mem 1 mP total "segments"
  have hmergemem : ∀ e ∈ mergeEvts mm mP, e.stage = "merge" := by
    unfold mergeEvts; exact stageRange_mem 1 mm mP "merge"
  have hremem : ∀ e ∈ rEvs, e.stage = "remux" := by
    rcases hrE with h | h | h <;> rw [h]
    · intro e he; simp at he
    · intro e he; simp at he; rw [he]
    · intro e he
      simp at he
      rcases he with h' | h' <;> rw [h']
  have hchain : List.Chain' ProgOk (tryBody env init_url segs total nr mt fp fs0).2.2 := by
    rw [hev]
    apply chain'_append_all
    · apply chain'_append_all
      · unfold segEvts; exact chain'_stageRange total "segments" mP 1
      · unfold mergeEvts; exact chain'_stageRange mP "merge" mm 1
      · intro x hx y hy
        exact Or.inl (by rw [hsegmem x hx, hmergemem y hy]; decide)
    · rcases hrE with h | h | h <;> rw [h]
      · exact List.chain'_nil
      · exact List.chain'_singleton _
      · rw [List.chain'_cons']
        refine ⟨?_, List.chain'_singleton _⟩
        intro y hy
        simp only [List.head?_cons, Option.mem_def, Option.some.injEq] at hy
        rw [← hy]
        exact Or.inr ⟨rfl, Nat.zero_le 1, rfl⟩
    · intro x hx y hy
      have hys := hremem y hy
      rcases List.mem_append.mp hx with hx1 | hx2
      · exact Or.inl (by rw [hsegmem x hx1, hys]; decide)
      · exact Or.inl (by rw [hmergemem x hx2, hys]; decide)
  refine ⟨hchain, ?_, ?_, ?_⟩
  · intro e he
    rw [hev] at he
    rcases List.mem_append.mp he with he1 | he2
    · rcases List.mem_append.mp he1 with he3 | he4
      · exact Or.inl (hsegmem e he3)
      · exact Or.inr (Or.inl (hmergemem e he4))
    · exact Or.inr (Or.inr (hremem e he2))
  · intro p hp
    obtain ⟨hmP, hmm⟩ := hsucc p hp
    have hmP1 : mP ≠ 0 := by omega
    have hse : stageEvents (tryBody env init_url segs total nr mt fp fs0).2.2 "segments" =
        segEvts 1 mP total := by
      rw [hev, stageEvents_append, stageEvents_append]
      rw [stageEvents_of_all _ _ hsegmem,
        stageEvents_of_none _ _ (fun e he => by rw [hmergemem e he]; decide),
        stageEvents_of_none _ _ (fun e he => by rw [hremem e he]; decide)]
      simp
    have hme : stageEvents (tryBody env init_url segs total nr mt fp fs0).2.2 "merge" =
        mergeEvts mm mP := by
      rw [hev, stageEvents_append, stageEvents_append]
      rw [stageEvents_of_none _ _ (fun e he => by rw [hsegmem e he]; decide),
        stageEvents_of_all _ _ hmergemem,
        stageEvents_of_none _ _ (fun e he => by rw [hremem e he]; decide)]
      simp
    constructor
    · intro e hlast
      rw [hse] at hlast
      unfold segEvts at hlast
      rw [stageRange_getLast 1 mP total "segments" hmP1] at hlast
      have he : e = ⟨1 + mP - 1, total, "segments"⟩ := (Option.some.inj hlast).symm
      rw [he]
      show 1 + mP - 1 = total
      omega
    · intro e hlast
      rw [hme] at hlast
      unfold mergeEvts at hlast
      have hmm1 : mm ≠ 0 := by omega
      rw [stageRange_getLast 1 mm mP "merge" hmm1] at hlast
      have he : e = ⟨1 + mm - 1, mP, "merge"⟩ := (Option.some.inj hlast).symm
      rw [he]
      show 1 + mm - 1 = mP
      omega
  · intro hrc
    have hre : stageEvents (tryBody env init_url segs total nr mt fp fs0).2.2 "remux" =
        stageEvents rEvs "remux" := by
      rw [hev, stageEvents_append, stageEvents_append]
      rw [stageEvents_of_none _ _ (fun e he => by rw [hsegmem e he]; decide),
        stageEvents_of_none _ _ (fun e he => by rw [hmergemem e he]; decide)]
      simp
    intro e hlast
    rw [hre] at hlast
    rcases hrc0 hrc with h | h <;> rw [h] at hlast
    · simp [stageEvents] at hlast
    · rw [stageEvents_of_all _ _ (by intro e' he'; simp at he'; rcases he' with h' | h' <;> rw [h'])] at hlast
      have hgl : ([⟨0, 1, "remux"⟩, ⟨1, 1, "remux"⟩] : List ProgressEvent).getLast? =
          some ⟨1, 1, "remux"⟩ := rfl
      rw [hgl] at hlast
      have he : e = ⟨1, 1, "remux"⟩ := (Option.some.inj hlast).symm
      rw [he]

/-- C8: within each progress stage of one download_variant call the
reported completed counts are non-decreasing and the total is constant
(adjacent events either stay in the same stage with these properties or
advance in the fixed stage order segments, merge, remux); every reported
stage is one of those three, in that order; and whenever a stage runs to
completion (all stages on a successful result, and the remux stage when
the tool exits with code zero), its last event reports completed equal to
total. -/
theorem downloadVariant_progress (env : NetEnv) (b : Broadcast) (v : StreamVariant)
    (output_directory : String) (filename : Option String) :
    List.Chain' ProgOk (download_variant env b v output_directory filename).events ∧
    (∀ e ∈ (download_variant env b v output_directory filename).events,
      e.stage = "segments" ∨ e.stage = "merge" ∨ e.stage = "remux") ∧
    (∀ p, (download_variant env b v output_directory filename).result = Except.ok p →
      stageCompleted (download_variant env b v output_directory filename).events "segments" ∧
      stageCompleted (download_variant env b v output_directory filename).events "merge") ∧
    (env.remuxReturncode = 0 →
      stageCompleted (download_variant env b v output_directory filename).events "remux") := by
  cases hpt : env.playlistText with
  | error u =>
    simp only [download_variant, hpt]
    refine ⟨List.chain'_nil, ?_, ?_, ?_⟩
    · intro e he; simp at he
    · intro p hp; exact absurd hp (by simp)
    · intro _ e hlast; simp [stageEvents] at hlast
  | ok t0 =>
    simp only [download_variant, hpt]
    by_cases hc : ((_parse_media_playlist t0 v.playlist_url).2.length = 0 ∧
        pyTruthyOpt (_parse_media_playlist t0 v.playlist_url).1 = false)
    · rw [if_pos hc]
      refine ⟨List.chain'_nil, ?_, ?_, ?_⟩
      · intro e he; simp at he
      · intro p hp; exact absurd hp (by simp)
      · intro _ e hlast; simp [stageEvents] at hlast
    · rw [if_neg hc]
      have hpos : 1 ≤ (_parse_media_playlist t0 v.playlist_url).2.length +
          (if pyTruthyOpt (_parse_media_playlist t0 v.playlist_url).1 = true then 1 else 0) := by
        by_cases hty : pyTruthyOpt (_parse_media_playlist t0 v.playlist_url).1 = true
        · rw [if_pos hty]; omega
        · have hl : (_parse_media_playlist t0 v.playlist_url).2.length ≠ 0 := by
            intro hl0
            exact hc ⟨hl0, by rw [Bool.not_eq_true] at hty; exact hty⟩
          rw [if_neg hty]; omega
      refine ⟨?_, ?_, ?_, ?_⟩
      · show List.Chain' ProgOk (tryBody env _ _ _ _ _ _
          { initFs with scratchExists := true, scratchEverCreated := true }).2.2
        exact (tryBody_progress env _ _ _ _ _ _ _ rfl rfl hpos).1
      · show ∀ e ∈ (tryBody env _ _ _ _ _ _
          { initFs with scratchExists := true, scratchEverCreated := true }).2.2, _
        exact (tryBody_progress env _ _ _ _ _ _ _ rfl rfl hpos).2.1
      · intro p hp
        exact (tryBody_progress env _ _ _ _ _ _ _ rfl rfl hpos).2.2.1 p hp
      · intro hrc
        exact (tryBody_progress env _ _ _ _ _ _ _ rfl rfl hpos).2.2.2 hrc

/-- C8 witness: on a concrete successful run every stage completes with
completed equal to total and the event sequence is admissible. -/
theorem downloadVariant_progress_witness :
    List.Chain' ProgOk
      (download_variant sampleEnv sampleBroadcast sampleVariant "out" (some "video.mp4")).events ∧
    stageCompleted (download_variant sampleEnv sampleBroadcast sampleVariant "out"
      (some "video.mp4")).events "segments" ∧
    stageCompleted (download_variant sampleEnv sampleBroadcast sampleVariant "out"
      (some "video.mp4")).events "merge" ∧
    stageCompleted (download_variant sampleEnv sampleBroadcast sampleVariant "out"
      (some "video.mp4")).events "remux" :=
  ⟨(downloadVariant_progress sampleEnv sampleBroadcast sampleVariant "out" (some "video.mp4")).1,
    ((downloadVariant_progress sampleEnv sampleBroadcast sampleVariant "out"
      (some "video.mp4")).2.2.1 "out/video.mp4" rfl).1,
    ((downloadVariant_progress sampleEnv sampleBroadcast sampleVariant "out"
      (some "video.mp4")).2.2.1 "out/video.mp4" rfl).2,
    (downloadVariant_progress sampleEnv sampleBroadcast sampleVariant "out"
      (some "video.mp4")).2.2.2 rfl⟩

/-! C2: the remux stage of download_variant. -/

theorem tryBody_ts_all_ok (env : NetEnv) (segs : List String) (total : Nat) (nr : Bool)
    (mt fp : String) (fs0 : FsState) (h0 : fs0.scratchFiles = [])
    (hdl : ∀ i, env.downloadOk i = true) (hmw : ∀ j, env.mergeWriteOk j = true) :
    ∃ fsPre evsPre,
      fsPre.remuxInvoked = fs0.remuxInvoked ∧
      fsPre.mergeTargetExists = true ∧
      (∀ e ∈ evsPre, e.stage ≠ "remux") ∧
      tryBody env none segs total nr mt fp fs0 =
        (if nr = true then
          (Except.ok (_remux_ts_to_mp4 env mt fp fsPre evsPre).1,
            (_remux_ts_to_mp4 env mt fp fsPre evsPre).2.1,
            (_remux_ts_to_mp4 env mt fp fsPre evsPre).2.2)
        else (Except.ok mt, fsPre, evsPre)) := by
  obtain ⟨k, hk_le, hkev, hkpi, hklen, _, _, _, hkremux, _, hknone, hkall⟩ :=
    downloadParts_spec env total segs ⟨0, fs0, []⟩
  have ho2 : (downloadParts env total segs ⟨0, fs0, []⟩).2 = none := hkall hdl
  obtain ⟨k2, hk2le, hmev, _, hmnone, hmall⟩ :=
    mergeParts_spec env (downloadParts env total segs ⟨0, fs0, []⟩).1.fs.scratchFiles.length
      (downloadParts env total segs ⟨0, fs0, []⟩).1.fs.scratchFiles 0 []
  have ho3 : (mergeParts env (downloadParts env total segs ⟨0, fs0, []⟩).1.fs.scratchFiles.length
      (downloadParts env total segs ⟨0, fs0, []⟩).1.fs.scratchFiles 0 []).2 = none := hmall hmw
  refine ⟨{ (downloadParts env total segs ⟨0, fs0, []⟩).1.fs with mergeTargetExists := true },
    (downloadParts env total segs ⟨0, fs0, []⟩).1.events ++
      (mergeParts env (downloadParts env total segs ⟨0, fs0, []⟩).1.fs.scratchFiles.length
        (downloadParts env total segs ⟨0, fs0, []⟩).1.fs.scratchFiles 0 []).1,
    hkremux, rfl, ?_, ?_⟩
  · intro e he
    rcases List.mem_append.mp he with he1 | he2
    · rw [hkev] at he1
      simp only [List.nil_append] at he1
      have hmem : e ∈ segEvts ((⟨0, fs0, []⟩ : PartLoop).partIndex + 1) k total := by
        simpa using he1
      unfold segEvts at hmem
      rw [stageRange_mem _ _ _ _ e hmem]
      decide
    · rw [hmev] at he2
      simp only [List.nil_append] at he2
      rw [stageRange_mem _ _ _ _ e he2]
      decide
  · simp only [tryBody, pyTruthyOpt, Bool.false_eq_true, if_false]
    simp only [ho2, ho3]

theorem tryBody_remux_cases (env : NetEnv) (segs : List String) (total : Nat)
    (mt fp : String) (fs0 : FsState) (h0 : fs0.scratchFiles = [])
    (hri : fs0.remuxInvoked = false)
    (hdl : ∀ i, env.downloadOk i = true) (hmw : ∀ j, env.mergeWriteOk j = true) :
    (env.ffmpegAvailable = true → env.remuxReturncode = 0 →
      (tryBody env none segs total true mt fp fs0).1 = Except.ok fp ∧
      (tryBody env none segs total true mt fp fs0).2.1.remuxInvoked = true ∧
      (tryBody env none segs total true mt fp fs0).2.1.mergeTargetExists = false ∧
      ∃ pre, (tryBody env none segs total true mt fp fs0).2.2 =
          pre ++ [⟨0, 1, "remux"⟩, ⟨1, 1, "remux"⟩] ∧ ∀ e ∈ pre, e.stage ≠ "remux") ∧
    (env.ffmpegAvailable = true → env.remuxReturncode ≠ 0 →
      (tryBody env none segs total true mt fp fs0).1 = Except.ok mt ∧
      (tryBody env none segs total true mt fp fs0).2.1.remuxInvoked = true ∧
      (tryBody env none segs total true mt fp fs0).2.1.mergeTargetExists = true ∧
      ∃ pre, (tryBody env none segs total true mt fp fs0).2.2 =
          pre ++ [⟨0, 1, "remux"⟩] ∧ ∀ e ∈ pre, e.stage ≠ "remux") ∧
    (env.ffmpegAvailable = false →
      (tryBody env none segs total true mt fp fs0).1 = Except.ok mt ∧
      (tryBody env none segs total true mt fp fs0).2.1.remuxInvoked = false ∧
      ∀ e ∈ (tryBody env none segs total true mt fp fs0).2.2, e.stage ≠ "remux") := by
  obtain ⟨fsPre, evsPre, hpri, hpmt, hpstage, heq⟩ :=
    tryBody_ts_all_ok env segs total true mt fp fs0 h0 hdl hmw
  rw [if_pos rfl] at heq
  refine ⟨?_, ?_, ?_⟩
  · intro hff hrc
    rw [heq, (remux_cases env mt fp fsPre evsPre).2.2 hff hrc]
    exact ⟨rfl, rfl, rfl, evsPre, rfl, hpstage⟩
  · intro hff hrc
    rw [heq, (remux_cases env mt fp fsPre evsPre).2.1 hff hrc]
    exact ⟨rfl, rfl, hpmt, evsPre, rfl, hpstage⟩
  · intro hff
    rw [heq, (remux_cases env mt fp fsPre evsPre).1 hff]
    exact ⟨rfl, hpri.trans hri, hpstage⟩

/-- C2 counterexample: on a run where the remux stage was decided (pure
transport-stream playlist, requested container .mp4) but ffmpeg is absent,
no remux progress event is reported at all, contrary to the claim that
progress (0,1,remux) is reported and the tool is then invoked; the call
degrades to returning the .ts path. -/
theorem downloadVariant_remux_counterexample :
    (_parse_media_playlist "#EXTM3U\nseg1.ts\nseg2.ts\n" "https://h.tv/a/p.m3u8").1 = none ∧
    lowerStr (pathSuffix (finalPathOf sampleBroadcast sampleVariant "out" (some "video.mp4"))) =
      ".mp4" ∧
    (download_variant { sampleEnv with ffmpegAvailable := false } sampleBroadcast sampleVariant
      "out" (some "video.mp4")).result = Except.ok "out/video.ts" ∧
    (⟨0, 1, "remux"⟩ : ProgressEvent) ∉
      (download_variant { sampleEnv with ffmpegAvailable := false } sampleBroadcast sampleVariant
        "out" (some "video.mp4")).events ∧
    (download_variant { sampleEnv with ffmpegAvailable := false } sampleBroadcast sampleVariant
      "out" (some "video.mp4")).fs.remuxInvoked = false := by
  exact ⟨rfl, rfl, rfl, by decide, rfl⟩

/-- C2 amended: when download_variant has decided a remux stage (the media
playlist has no init segment and the final suffix is .mp4) and the
download and merge stages succeed: with the tool available and exiting
zero, progress (0,1,remux) is reported, the tool is invoked, the
intermediate transport-stream file is deleted, (1,1,remux) is reported and
the final .mp4 path is returned; with the tool available but exiting
non-zero, (0,1,remux) is reported and the intermediate transport-stream
path is returned as a degraded success; with the tool absent, no remux
progress is reported at all, the tool is not invoked, and the intermediate
transport-stream path is returned as a degraded success.  No error is
raised for tool absence or non-zero exit. -/
theorem downloadVariant_remux (env : NetEnv) (b : Broadcast) (v : StreamVariant)
    (dir : String) (fn : Option String) (t : String) (segs : List String)
    (h1 : env.playlistText = Except.ok t)
    (h2 : _parse_media_playlist t v.playlist_url = (none, segs))
    (h3 : segs ≠ [])
    (h4 : lowerStr (pathSuffix (finalPathOf b v dir fn)) = ".mp4")
    (h5 : ∀ i, env.downloadOk i = true)
    (h6 : ∀ j, env.mergeWriteOk j = true) :
    (env.ffmpegAvailable = true → env.remuxReturncode = 0 →
      (download_variant env b v dir fn).result = Except.ok (finalPathOf b v dir fn) ∧
      (download_variant env b v dir fn).fs.remuxInvoked = true ∧
      (download_variant env b v dir fn).fs.mergeTargetExists = false ∧
      ∃ pre, (download_variant env b v dir fn).events =
          pre ++ [⟨0, 1, "remux"⟩, ⟨1, 1, "remux"⟩] ∧ ∀ e ∈ pre, e.stage ≠ "remux") ∧
    (env.ffmpegAvailable = true → env.remuxReturncode ≠ 0 →
      (download_variant env b v dir fn).result =
        Except.ok (withSuffix (finalPathOf b v dir fn) ".ts") ∧
      (download_variant env b v dir fn).fs.remuxInvoked = true ∧
      (download_variant env b v dir fn).fs.mergeTargetExists = true ∧
      ∃ pre, (download_variant env b v dir fn).events =
          pre ++ [⟨0, 1, "remux"⟩] ∧ ∀ e ∈ pre, e.stage ≠ "remux") ∧
    (env.ffmpegAvailable = false →
      (download_variant env b v dir fn).result =
        Except.ok (withSuffix (finalPathOf b v dir fn) ".ts") ∧
      (download_variant env b v dir fn).fs.remuxInvoked = false ∧
      ∀ e ∈ (download_variant env b v dir fn).events, e.stage ≠ "remux") := by
  have hcond : ¬(segs.length = 0 ∧ pyTruthyOpt (none : Option String) = false) := by
    intro ⟨hl, _⟩
    exact h3 (List.length_eq_zero.mp hl)
  have hnr : ((none : Option String).isNone &&
      decide (lowerStr (pathSuffix (finalPathOf b v dir fn)) = ".mp4")) = true := by
    rw [h4]
    rfl
  have hite : (if (true : Bool) = true then withSuffix (finalPathOf b v dir fn) ".ts"
      else finalPathOf b v dir fn) = withSuffix (finalPathOf b v dir fn) ".ts" := if_pos rfl
  simp only [download_variant, h1, h2]
  rw [if_neg hcond, hnr, hite]
  have HC := tryBody_remux_cases env segs
    (segs.length + if pyTruthyOpt (none : Option String) = true then 1 else 0)
    (withSuffix (finalPathOf b v dir fn) ".ts") (finalPathOf b v dir fn)
    { initFs with scratchExists := true, scratchEverCreated := true } rfl rfl h5 h6
  refine ⟨?_, ?_, ?_⟩
  · intro hff hrc
    obtain ⟨ha, hb, hcm, pre, hpe, hpst⟩ := HC.1 hff hrc
    exact ⟨ha, hb, hcm, pre, hpe, hpst⟩
  · intro hff hrc
    obtain ⟨ha, hb, hcm, pre, hpe, hpst⟩ := HC.2.1 hff hrc
    exact ⟨ha, hb, hcm, pre, hpe, hpst⟩
  · intro hff
    obtain ⟨ha, hb, hst⟩ := HC.2.2 hff
    exact ⟨ha, hb, hst⟩

/-- C2 witness: a concrete run with the tool available and succeeding
returns the final .mp4 path with the intermediate deleted; a concrete
run without the tool returns the .ts path. -/
theorem downloadVariant_remux_witness :
    (download_variant sampleEnv sampleBroadcast sampleVariant "out" (some "video.mp4")).result =
      Except.ok (finalPathOf sampleBroadcast sampleVariant "out" (some "video.mp4")) ∧
    (download_variant sampleEnv sampleBroadcast sampleVariant "out"
      (some "video.mp4")).fs.remuxInvoked = true ∧
    (download_variant sampleEnv sampleBroadcast sampleVariant "out"
      (some "video.mp4")).fs.mergeTargetExists = false ∧
    (download_variant { sampleEnv with ffmpegAvailable := false } sampleBroadcast sampleVariant
      "out" (some "video.mp4")).result =
      Except.ok (withSuffix (finalPathOf sampleBroadcast sampleVariant "out" (some "video.mp4")) ".ts") :=
  ⟨((downloadVariant_remux sampleEnv sampleBroadcast sampleVariant "out" (some "video.mp4")
      "#EXTM3U\nseg1.ts\nseg2.ts\n" ["https://h.tv/a/seg1.ts", "https://h.tv/a/seg2.ts"]
      rfl rfl (by decide) rfl (fun _ => rfl) (fun _ => rfl)).1 rfl rfl).1,
    ((downloadVariant_remux sampleEnv sampleBroadcast sampleVariant "out" (some "video.mp4")
      "#EXTM3U\nseg1.ts\nseg2.ts\n" ["https://h.tv/a/seg1.ts", "https://h.tv/a/seg2.ts"]
      rfl rfl (by decide) rfl (fun _ => rfl) (fun _ => rfl)).1 rfl rfl).2.1,
    ((downloadVariant_remux sampleEnv sampleBroadcast sampleVariant "out" (some "video.mp4")
      "#EXTM3U\nseg1.ts\nseg2.ts\n" ["https://h.tv/a/seg1.ts", "https://h.tv/a/seg2.ts"]
      rfl rfl (by decide) rfl (fun _ => rfl) (fun _ => rfl)).1 rfl rfl).2.2.1,
    ((downloadVariant_remux { sampleEnv with ffmpegAvailable := false } sampleBroadcast
      sampleVariant "out" (some "video.mp4")
      "#EXTM3U\nseg1.ts\nseg2.ts\n" ["https://h.tv/a/seg1.ts", "https://h.tv/a/seg2.ts"]
      rfl rfl (by decide) rfl (fun _ => rfl) (fun _ => rfl)).2.2 rfl).1⟩
